import Mathlib

/-!
# Point-cloud viewer (`view_util_ptcd.cpp`): embedding and verified properties

The C globals of `view_util_ptcd.cpp` become fields of explicit values that are
passed through the functions.  Conventions of the embedding:

* `int` / `uint32_t` arithmetic is done in `Int` / `Nat` with explicit
  reduction modulo `2^32` (`wrap32`, `usub32`); narrowing conversions to
  `short` and `uint8_t` are `toShort` and `toU8`.
* `double` and `float` values of the viewer state are elements of an ordered
  field `α` (exact arithmetic): `ℚ` to run the functions, `ℝ` for the analytic
  statements. The `double` expression of `makeColorTbl`, whose integer part
  selects the colour, is computed in `ℚ` with every operation rounded to the
  nearest `double` (`roundDouble`).
* an array indexed by a variable (`g_rainbow_color_tbl`, `g_ply.pt`) is a
  function from `Nat`. The stores of `makeColorTbl` are checked against the
  65536 cells of a row of the table: a store past them makes the result
  `none`. For `g_ply.pt`, and for the reads of the table, an index past the
  declared size is a cell of its own, so an out-of-range access is visible as
  an access to an index `≥` the size. An array indexed by constants only
  (`g_cq`, `g_tq`, `g_rt`, `rotate_v`) is a function from `Fin n`.
* what GLUT does (`glutGetModifiers`, the window, the main loop) enters as
  arguments of the callbacks and as the events of a run.
-/

namespace PtCloud

/-! ## Machine integers -/

/-- Two's-complement reduction of an integer to the range of a 32-bit `int`. -/
def wrap32 (v : Int) : Int := (v + 2147483648) % 4294967296 - 2147483648

/-- Subtraction of two `uint32_t` values (modulo `2^32`). -/
def usub32 (a b : Nat) : Nat := (a + 4294967296 - b % 4294967296) % 4294967296

/-- Conversion of an integer value to `short` (16 bit, two's complement). -/
def toShort (v : Int) : Int := (v + 32768) % 65536 - 32768

/-- Conversion of an integer value to `uint8_t` (what a store of `(char)v`
into a `uint8_t` cell keeps). -/
def toU8 (v : Int) : Nat := (v % 256).toNat

/-- Conversion of a non-integer value to an integer type: truncation toward
zero. -/
def truncToInt {α : Type} [LinearOrderedField α] [FloorRing α] (x : α) : Int :=
  if 0 ≤ x then ⌊x⌋ else ⌈x⌉

/-- C loop `for (i = lo; i < lo + n; i++) s = body i s`, by the number `n` of
iterations still to run. -/
def forCount {σ : Type} (body : Nat → σ → σ) : Nat → Nat → σ → σ
  | _, 0, s => s
  | lo, n + 1, s => forCount body (lo + 1) n (body lo s)

/-- C loop `for (i = lo; i < hi; i++) s = body i s`. -/
def forLoop {σ : Type} (lo hi : Nat) (body : Nat → σ → σ) (s : σ) : σ :=
  forCount body lo (hi - lo) s

/-! ## Rainbow colour table (`makeColorTbl`) -/

/-- The table `uint8_t g_rainbow_color_tbl[3][65536]`: channel, then index.
Only the cells of index below 65536 exist in the program. -/
abbrev ColorTbl := Fin 3 → Nat → Nat

/-- Channel `c` (0 = R, 1 = G, 2 = B) of a colour triple. -/
def chan (c : Fin 3) (x : Nat × Nat × Nat) : Nat :=
  if c = 0 then x.1 else if c = 1 then x.2.1 else x.2.2

/-- The table with the cells of index `i` replaced by `r`, `g`, `b`. -/
def setRGB (t : ColorTbl) (i : Nat) (r g b : Nat) : ColorTbl :=
  fun c j => if j = i then chan c (r, g, b) else t c j

/-- The three stores `tbl[0][i] = r; tbl[1][i] = g; tbl[2][i] = b`. A row has
65536 cells: with `i ≥ 65536` the stores fall outside the row (on the next row,
and past the array on the variables declared after it), the behaviour of the
program is undefined and the result is `none`. -/
def storeRGB (t : ColorTbl) (i : Nat) (r g b : Nat) : Option ColorTbl :=
  if i < 65536 then some (setRGB t i r g b) else none

/-- The entry of the table at index `i` as a triple `(R, G, B)`. -/
def rgbAt (t : ColorTbl) (i : Nat) : Nat × Nat × Nat := (t 0 i, t 1 i, t 2 i)

/-- C loop `for (i = lo; i < lo + n; i++)` whose body can fail, by the number
`n` of iterations still to run; the loop stops at the first failure. -/
def forCountOpt {σ : Type} (body : Nat → σ → Option σ) : Nat → Nat → σ → Option σ
  | _, 0, s => some s
  | lo, n + 1, s => (body lo s).bind (forCountOpt body (lo + 1) n)

/-- C loop `for (i = lo; i < hi; i++)` whose body can fail. -/
def forLoopOpt {σ : Type} (lo hi : Nat) (body : Nat → σ → Option σ) (s : σ) : Option σ :=
  forCountOpt body lo (hi - lo) s

/-- Rounding of a rational to the nearest integer, a tie to the even one. -/
def roundHalfEven (y : ℚ) : Int :=
  if y - ⌊y⌋ < 1 / 2 then ⌊y⌋
  else if 1 / 2 < y - ⌊y⌋ then ⌊y⌋ + 1
  else if ⌊y⌋ % 2 = 0 then ⌊y⌋ else ⌊y⌋ + 1

/-- The `double` a result is rounded to (IEEE 754 binary64, round to nearest,
ties to even): the nearest multiple of `2^(e - 52)`, where `2^e ≤ |x| < 2^(e+1)`.
The range of the exponent is not modelled: the values `makeColorTbl` computes
from `uint32_t` operands lie between `2^-32` and `2^64` in absolute value, far
inside it. -/
def roundDouble (x : ℚ) : ℚ :=
  if x = 0 then 0
  else (roundHalfEven (x / 2 ^ (Int.log 2 |x| - 52)) : ℚ) * 2 ^ (Int.log 2 |x| - 52)

/-- The scaled position `((double)(i-min) / (double)(max-min)) * rng_tmp` of
`makeColorTbl`: the subtractions are `uint32_t` subtractions, their conversion
to `double` and that of `g_range` are exact, and the quotient and the product
are each rounded to a `double`. (For `max = min` the C quotient is an IEEE
infinity or NaN; this happens only at indices the later loops of `makeColorTbl`
overwrite.) -/
def scaledPos (g_range_min g_range_max g_range i : Nat) : ℚ :=
  roundDouble
    (roundDouble ((usub32 i g_range_min : ℚ) / (usub32 g_range_max g_range_min : ℚ))
      * (g_range : ℚ))

/-- The `short ii` of `makeColorTbl`. (The conversion `(short)` of a `double`
whose integer part is outside the range of `short` is undefined in C and wraps
here; for `g_range ≤ 32255` the converted value, at most `g_range + 512`, is
inside it.) -/
def rampII (g_range_min g_range_max g_range i : Nat) : Int :=
  if scaledPos g_range_min g_range_max g_range i > (g_range : ℚ) + 512 then
    toShort (((g_range + 512) % 4294967296 : Nat) : Int)
  else
    toShort (toShort (truncToInt (scaledPos g_range_min g_range_max g_range i)) + 255)

/-- The colour the first loop of `makeColorTbl` writes at `i`: the band of `ii`
decides it. -/
def rampRGB (g_range_min g_range_max g_range i : Nat) : Nat × Nat × Nat :=
  let ii := rampII g_range_min g_range_max g_range i
  if ii < 0 then (255, 255, 255)
  else if ii < 255 then (255, 255, 255)
  else if ii < 511 then (toU8 255, toU8 (ii - 255), toU8 0)
  else if ii < 766 then (toU8 (765 - ii), toU8 255, toU8 0)
  else if ii < 1021 then (toU8 0, toU8 255, toU8 (ii - 765))
  else if ii < 1276 then
    (toU8 0, toU8 (((1275 : Int) - (i : Int)) % 4294967296), toU8 255)
  else (toU8 0, toU8 0, toU8 0)

/-- Body of the first loop of `makeColorTbl`. -/
def rampStore (g_range_min g_range_max g_range : Nat) (i : Nat) (t : ColorTbl) :
    Option ColorTbl :=
  storeRGB t i (rampRGB g_range_min g_range_max g_range i).1
    (rampRGB g_range_min g_range_max g_range i).2.1
    (rampRGB g_range_min g_range_max g_range i).2.2

/-- The function `makeColorTbl(min_val, max_val, range)`: the table it leaves,
from the table `t` it finds, or `none` when one of its loops stores outside the
table. The arguments are `uint32_t` values. -/
def makeColorTbl (t : ColorTbl) (min_val max_val range : Nat) : Option ColorTbl :=
  let g_range_min := min_val
  let g_range_max := max_val
  let g_range := range
  (forLoopOpt 0 g_range_max (rampStore g_range_min g_range_max g_range) t).bind fun t1 =>
  (forLoopOpt 0 g_range_min (fun i t => storeRGB t i 255 255 255) t1).bind fun t2 =>
  forLoopOpt g_range_max 65536 (fun i t => storeRGB t i 0 0 0) t2

/-! ## Quaternions (`qMul`, `qRot`) -/

/-- The function `qMul(r, p, q)`: the four cells of `r` it fills. -/
def qMul {α : Type} [Ring α] (p q : Fin 4 → α) : Fin 4 → α :=
  ![p 0 * q 0 - p 1 * q 1 - p 2 * q 2 - p 3 * q 3,
    p 0 * q 1 + p 1 * q 0 + p 2 * q 3 - p 3 * q 2,
    p 0 * q 2 - p 1 * q 3 + p 2 * q 0 + p 3 * q 1,
    p 0 * q 3 + p 1 * q 2 - p 2 * q 1 + p 3 * q 0]

/-- The function `qRot(r, q)`: the sixteen cells of `r` it fills (it stores
into every cell, so the result does not depend on the old `r`). -/
def qRot {α : Type} [Ring α] (q : Fin 4 → α) : Fin 16 → α := fun i =>
  let x2 := q 1 * q 1 * 2
  let y2 := q 2 * q 2 * 2
  let z2 := q 3 * q 3 * 2
  let xy := q 1 * q 2 * 2
  let yz := q 2 * q 3 * 2
  let zx := q 3 * q 1 * 2
  let xw := q 1 * q 0 * 2
  let yw := q 2 * q 0 * 2
  let zw := q 3 * q 0 * 2
  match i.val with
  | 0 => 1 - y2 - z2
  | 1 => xy + zw
  | 2 => zx - yw
  | 4 => xy - zw
  | 5 => 1 - z2 - x2
  | 6 => yz + xw
  | 8 => zx + yw
  | 9 => yz - xw
  | 10 => 1 - x2 - y2
  | 3 => 0
  | 7 => 0
  | 11 => 0
  | 12 => 0
  | 13 => 0
  | 14 => 0
  | _ => 1

/-- Squared norm of a quaternion. -/
def qNormSq {α : Type} [Ring α] (q : Fin 4 → α) : α :=
  q 0 * q 0 + q 1 * q 1 + q 2 * q 2 + q 3 * q 3

/-- Entry (row, col) of a 16-cell array read in column-major order, as
`glMultMatrixd` reads it. -/
def matEntry {α : Type} (r : Fin 16 → α) (row col : Fin 4) : α :=
  r ⟨4 * col.val + row.val, by omega⟩

/-- Column `j` of the upper-left 3x3 block of a column-major 16-cell array. -/
def col3 {α : Type} (r : Fin 16 → α) (j : Fin 3) : Fin 3 → α :=
  fun i => r ⟨4 * j.val + i.val, by omega⟩

/-- Row `i` of the upper-left 3x3 block of a column-major 16-cell array. -/
def row3 {α : Type} (r : Fin 16 → α) (i : Fin 3) : Fin 3 → α :=
  fun j => r ⟨4 * j.val + i.val, by omega⟩

/-- Scalar product of two 3-vectors. -/
def dot3 {α : Type} [Ring α] (u v : Fin 3 → α) : α :=
  u 0 * v 0 + u 1 * v 1 + u 2 * v 2

/-- A column-major 16-cell array is an orthonormal 4x4 matrix of the rigid
kind: the columns of its upper-left 3x3 block have unit length and are pairwise
orthogonal, so have its rows, and its fourth row and fourth column are
`(0, 0, 0, 1)`. -/
def Orthonormal16 {α : Type} [Ring α] (r : Fin 16 → α) : Prop :=
  (∀ i j : Fin 3, dot3 (col3 r i) (col3 r j) = if i = j then 1 else 0) ∧
  (∀ i j : Fin 3, dot3 (row3 r i) (row3 r j) = if i = j then 1 else 0) ∧
  (∀ c : Fin 4, matEntry r 3 c = if c = 3 then 1 else 0) ∧
  (∀ c : Fin 4, matEntry r c 3 = if c = 3 then 1 else 0)

/-- The 4x4 identity as a 16-cell array. -/
def identity16 {α : Type} [Ring α] : Fin 16 → α := fun i =>
  if i = 0 ∨ i = 5 ∨ i = 10 ∨ i = 15 then 1 else 0

/-! ## Global state of the viewer -/

/-- Constant `SCALE_DEFAULT`. -/
def SCALE_DEFAULT : Int := 600

/-- Constant `MAX_PLY_SIZE` of `view_util_ptcd.h`. -/
def MAX_PLY_SIZE : Nat := 640 * 480 * 2

/-- The struct `pt_3d_t`. -/
structure pt_3d_t (α : Type) where
  x : α
  y : α
  z : α

/-- The struct `ptcd_3d_t`; `pt` is the array `pt[MAX_PLY_SIZE]`. -/
structure ptcd_3d_t (α : Type) where
  ns : α
  cnt : Int
  pt : Nat → pt_3d_t α

/-- What the C runtime contributes and exact arithmetic does not define: the
`libm` functions, and the value a `double` has after `memset` cleared its
first four bytes. -/
structure CEnv (α : Type) where
  sqrt : α → α
  sin : α → α
  cos : α → α
  clearLow4 : α → α

/-- The file-scope variables of `view_util_ptcd.cpp` (the colour table is kept
apart, as `ColorTbl`), and two observations of the GLUT library:
`glut_idle` (an idle callback is registered) and `glut_leave_calls` (number of
calls of `glutLeaveMainLoop`). -/
structure Globals (α : Type) where
  g_ply : ptcd_3d_t α
  g_fov_y : α
  g_z_far : α
  g_ns : α
  g_wheel : Int
  g_k_shift : Int
  g_k_ctrl : Int
  g_k_alt : Int
  g_offset_x : α
  g_offset_y : α
  g_offset_z : α
  g_glut_running : Bool
  g_glut_inited : Bool
  g_gl_win_id : Int
  g_eye_x : α
  g_eye_y : α
  g_eye_z : α
  g_tgt_x : α
  g_tgt_y : α
  g_tgt_z : α
  g_cx : Int
  g_cy : Int
  g_cx_s : Int
  g_cy_s : Int
  g_cx_a : Int
  g_cy_a : Int
  g_sx : α
  g_sy : α
  g_cq : Fin 4 → α
  g_tq : Fin 4 → α
  g_rt : Fin 16 → α
  g_dot_size : α
  g_depth_min : Int
  g_refresh_ms : Int
  g_disp_grid : Bool
  g_disp_xyz_axis : Bool
  g_disp_guide : Bool
  g_disp_depth_bar : Bool
  g_disp_depth : Bool
  g_disp_ske : Bool
  rotate_v : Fin 16 → α
  rotate_v_drag : Fin 16 → α
  glut_idle : Bool
  glut_leave_calls : Nat

/-- The variables as their initialisers leave them at program start (static
storage without an initialiser is zero). -/
def initGlobals {α : Type} [LinearOrderedField α] : Globals α where
  g_ply := { ns := 0, cnt := 0, pt := fun _ => { x := 0, y := 0, z := 0 } }
  g_fov_y := 70
  g_z_far := 9000
  g_ns := 0
  g_wheel := SCALE_DEFAULT / 10
  g_k_shift := 0
  g_k_ctrl := 0
  g_k_alt := 0
  g_offset_x := 0
  g_offset_y := 0
  g_offset_z := 0
  g_glut_running := false
  g_glut_inited := false
  g_gl_win_id := 0
  g_eye_x := -0.2
  g_eye_y := -0.4
  g_eye_z := 0.8
  g_tgt_x := 0
  g_tgt_y := 0
  g_tgt_z := 0
  g_cx := 0
  g_cy := 0
  g_cx_s := 0
  g_cy_s := 0
  g_cx_a := 0
  g_cy_a := 0
  g_sx := 0
  g_sy := 0
  g_cq := ![1, 0, 0, 0]
  g_tq := ![0, 0, 0, 0]
  g_rt := fun _ => 0
  g_dot_size := 1
  g_depth_min := 0
  g_refresh_ms := 30
  g_disp_grid := true
  g_disp_xyz_axis := true
  g_disp_guide := true
  g_disp_depth_bar := true
  g_disp_depth := true
  g_disp_ske := true
  rotate_v := identity16
  rotate_v_drag := identity16
  glut_idle := false
  glut_leave_calls := 0

/-! ## GLUT constants (`freeglut_std.h`) -/

def GLUT_LEFT_BUTTON : Int := 0
def GLUT_RIGHT_BUTTON : Int := 2
def GLUT_DOWN : Int := 0
def GLUT_UP : Int := 1
def GLUT_ACTIVE_SHIFT : Nat := 1
def GLUT_ACTIVE_CTRL : Nat := 2
def GLUT_ACTIVE_ALT : Nat := 4
def GLUT_KEY_F1 : Int := 1
def GLUT_KEY_F2 : Int := 2
def GLUT_KEY_F3 : Int := 3
def GLUT_KEY_F4 : Int := 4
def GLUT_KEY_F7 : Int := 7
def GLUT_KEY_F8 : Int := 8
def GLUT_KEY_F9 : Int := 9
def GLUT_KEY_F10 : Int := 10
def GLUT_KEY_F11 : Int := 11
def GLUT_KEY_F12 : Int := 12
def GLUT_KEY_LEFT : Int := 100
def GLUT_KEY_UP : Int := 101
def GLUT_KEY_RIGHT : Int := 102
def GLUT_KEY_DOWN : Int := 103
def GLUT_KEY_PAGE_UP : Int := 104
def GLUT_KEY_PAGE_DOWN : Int := 105
def GLUT_KEY_HOME : Int := 106

/-! ## Reset -/

/-- A call `memset(r, 0, n * sizeof r[0])` on a 16-cell array: the first `n`
cells become zero. -/
def zeroCells {α : Type} [Zero α] (n : Nat) (r : Fin 16 → α) : Fin 16 → α :=
  fun i => if i.val < n then 0 else r i

/-- The four stores `r[0] = 1.0; r[5] = 1.0; r[10] = 1.0; r[15] = 1.0`. -/
def oneDiag {α : Type} [One α] (r : Fin 16 → α) : Fin 16 → α :=
  Function.update (Function.update (Function.update (Function.update r 0 1) 5 1) 10 1) 15 1

/-- The function `resetRotate()`. Each `memset` is given the number of cells as
its byte count: it clears the first 4 bytes of `g_tq` (half of the `double`
`g_tq[0]`), the first 16 bytes of `g_rt` (two `double` cells) and the first 16
bytes of `rotate_v` and `rotate_v_drag` (four `float` cells). -/
def resetRotate {α : Type} [LinearOrderedField α] (E : CEnv α) (s : Globals α) : Globals α :=
  let s := { s with g_offset_x := 0, g_offset_y := 0, g_offset_z := 0 }
  let s := { s with g_wheel := SCALE_DEFAULT / 10 }
  let s := { s with g_depth_min := 0 }
  let s := { s with g_eye_x := 1.5, g_eye_y := 0.5, g_eye_z := -6 }
  let s := { s with g_tgt_x := 0, g_tgt_y := 0, g_tgt_z := 0 }
  let s := { s with g_cq := ![1, 0, 0, 0] }
  let s := { s with g_tq := Function.update s.g_tq 0 (E.clearLow4 (s.g_tq 0)) }
  let s := { s with g_rt := zeroCells 2 s.g_rt }
  let s := { s with g_rt := qRot s.g_cq }
  let s := { s with rotate_v := zeroCells 4 s.rotate_v }
  let s := { s with rotate_v := oneDiag s.rotate_v }
  let s := { s with rotate_v_drag := zeroCells 4 s.rotate_v_drag }
  { s with rotate_v_drag := oneDiag s.rotate_v_drag }

/-! ## Input callbacks -/

/-- The three assignments from `glutGetModifiers()` that open `cbMouse` and
`cbMotion`; `k_state` is the value `glutGetModifiers()` returns. -/
def readModifiers {α : Type} (k_state : Nat) (s : Globals α) : Globals α :=
  { s with
    g_k_shift := if k_state &&& GLUT_ACTIVE_SHIFT ≠ 0 then 1 else 0
    g_k_ctrl := if k_state &&& GLUT_ACTIVE_CTRL ≠ 0 then 1 else 0
    g_k_alt := if k_state &&& GLUT_ACTIVE_ALT ≠ 0 then 1 else 0 }

/-- The statements `g_wheel += 15 * d; if (g_wheel <= 15) g_wheel = 15;` that
the wheel and zoom-key paths share. -/
def zoomBy {α : Type} (d : Int) (s : Globals α) : Globals α :=
  let w := wrap32 (s.g_wheel + wrap32 (15 * d))
  { s with g_wheel := if w ≤ 15 then 15 else w }

/-- The callback `cbMouse(button, state, x, y)`. -/
def cbMouse {α : Type} [LinearOrderedField α] (E : CEnv α) (k_state : Nat)
    (button state x y : Int) (s : Globals α) : Globals α :=
  let s := readModifiers k_state s
  if s.g_k_shift = 1 ∨ s.g_k_ctrl = 1 ∨ s.g_k_alt = 1 then
    if button = GLUT_LEFT_BUTTON then
      if state = GLUT_DOWN then
        { s with g_cx_s := x, g_cy_s := y, g_cx_a := x, g_cy_a := y, glut_idle := true }
      else if state = GLUT_UP then { s with glut_idle := false }
      else s
    else if button = GLUT_RIGHT_BUTTON then resetRotate E s
    else s
  else if s.g_k_shift = 0 then
    if button = GLUT_LEFT_BUTTON then
      if state = GLUT_DOWN then
        { s with g_cx := x, g_cy := y, g_cx_s := x, g_cy_s := y, g_cx_a := x, g_cy_a := y,
                 glut_idle := true }
      else if state = GLUT_UP then
        { s with glut_idle := false, g_cq := ![s.g_tq 0, s.g_tq 1, s.g_tq 2, s.g_tq 3] }
      else s
    else if button = GLUT_RIGHT_BUTTON then resetRotate E s
    else if button = 3 ∨ button = 4 then
      let isZoomIn : Int := if button = 3 then -1 else 1
      zoomBy isZoomIn s
    else s
  else s

/-- The callback `cbMouseWheel(wheel_number, direction, x, y)`. -/
def cbMouseWheel {α : Type} (_wheel_number direction _x _y : Int) (s : Globals α) : Globals α :=
  zoomBy direction s

/-- Constant `SCALE`, the product `2.0 * 3.14159265358979323846`. -/
def SCALE {α : Type} [LinearOrderedField α] : α := 2 * 3.14159265358979323846

/-- The quaternion `dq` that `cbMotion` builds from a displacement `(dx, dy)`
of length `a`. -/
def dragQuat {α : Type} [LinearOrderedField α] (E : CEnv α) (dx dy a : α) : Fin 4 → α :=
  let ar := a * SCALE * 0.0625
  let as_ := E.sin ar / a
  ![E.cos ar, dy * as_, dx * as_, 0]

/-- No modifier key is reported by `glutGetModifiers()`. -/
def noModifier (k_state : Nat) : Prop :=
  k_state &&& GLUT_ACTIVE_SHIFT = 0 ∧ k_state &&& GLUT_ACTIVE_CTRL = 0 ∧
    k_state &&& GLUT_ACTIVE_ALT = 0

instance (k_state : Nat) : Decidable (noModifier k_state) := by
  unfold noModifier
  exact inferInstance

/-- The displacement `dx = (x - g_cx) * g_sx` of `cbMotion`. -/
def motionDx {α : Type} [LinearOrderedField α] (s : Globals α) (x : Int) : α :=
  ((wrap32 (x - s.g_cx) : Int) : α) * s.g_sx

/-- The displacement `dy = (y - g_cy) * g_sy` of `cbMotion`. -/
def motionDy {α : Type} [LinearOrderedField α] (s : Globals α) (y : Int) : α :=
  ((wrap32 (y - s.g_cy) : Int) : α) * s.g_sy

/-- The callback `cbMotion(x, y)`. -/
def cbMotion {α : Type} [LinearOrderedField α] (E : CEnv α) (k_state : Nat)
    (x y : Int) (s : Globals α) : Globals α :=
  let s := readModifiers k_state s
  if s.g_k_ctrl = 1 then
    let s := { s with
      g_offset_x := s.g_offset_x
        + ((wrap32 (x - s.g_cx_s) : Int) : α) * s.g_sx * 6 * ((SCALE_DEFAULT : α) / (s.g_wheel : α)) }
    let s := { s with
      g_offset_y := s.g_offset_y
        + ((wrap32 (s.g_cy_s - y) : Int) : α) * s.g_sy * 6 * ((SCALE_DEFAULT : α) / (s.g_wheel : α)) }
    { s with g_cx_s := x, g_cy_s := y }
  else if s.g_k_shift = 1 then
    let s := { s with
      g_eye_z := s.g_eye_z
        - ((wrap32 (s.g_cy_s - y) : Int) : α) * s.g_sy * 6 * ((SCALE_DEFAULT : α) / (s.g_wheel : α)) }
    let s := if s.g_eye_z < 0 then { s with g_tgt_z := s.g_eye_z - 1 } else { s with g_tgt_z := 0 }
    { s with g_cx_s := x, g_cy_s := y }
  else if s.g_k_alt = 1 then
    let s := { s with
      g_offset_z := s.g_offset_z
        + ((wrap32 (s.g_cy_a - y) : Int) : α) * s.g_sy * 6 * ((SCALE_DEFAULT : α) / (s.g_wheel : α)) }
    { s with g_cx_a := x, g_cy_a := y }
  else if s.g_k_shift = 0 then
    let dx := motionDx s x
    let dy := motionDy s y
    let a := E.sqrt (dx * dx + dy * dy)
    if a ≠ 0 then
      let dq := dragQuat E dx dy a
      let s := { s with g_tq := qMul dq s.g_cq }
      { s with g_rt := qRot s.g_tq }
    else s
  else s

/-- The callback `cbSpecialKey(key, x, y)`. -/
def cbSpecialKey {α : Type} [LinearOrderedField α] (E : CEnv α)
    (key _x _y : Int) (s : Globals α) : Globals α :=
  if key = GLUT_KEY_F1 then { s with g_disp_guide := !s.g_disp_guide }
  else if key = GLUT_KEY_F2 then { s with g_disp_xyz_axis := !s.g_disp_xyz_axis }
  else if key = GLUT_KEY_F3 then { s with g_disp_grid := !s.g_disp_grid }
  else if key = GLUT_KEY_F4 then { s with g_disp_depth_bar := !s.g_disp_depth_bar }
  else if key = GLUT_KEY_F7 then { s with g_depth_min := wrap32 (s.g_depth_min + 50) }
  else if key = GLUT_KEY_F8 then
    if s.g_depth_min ≥ 50 then { s with g_depth_min := wrap32 (s.g_depth_min - 50) } else s
  else if key = GLUT_KEY_F9 then
    if s.g_dot_size > 0 then { s with g_dot_size := s.g_dot_size - 1 } else s
  else if key = GLUT_KEY_F10 then
    if s.g_dot_size < 100 then { s with g_dot_size := s.g_dot_size + 1 } else s
  else if key = GLUT_KEY_F12 ∨ key = GLUT_KEY_F11 then
    let isZoomIn : Int := if key = GLUT_KEY_F11 then -1 else 1
    zoomBy isZoomIn s
  else if key = GLUT_KEY_PAGE_UP then { s with g_eye_z := s.g_eye_z - 0.1 }
  else if key = GLUT_KEY_PAGE_DOWN then { s with g_eye_z := s.g_eye_z + 0.1 }
  else if key = GLUT_KEY_LEFT then { s with g_eye_x := s.g_eye_x - 0.1 }
  else if key = GLUT_KEY_RIGHT then { s with g_eye_x := s.g_eye_x + 0.1 }
  else if key = GLUT_KEY_UP then { s with g_eye_y := s.g_eye_y + 0.1 }
  else if key = GLUT_KEY_DOWN then { s with g_eye_y := s.g_eye_y - 0.1 }
  else if key = GLUT_KEY_HOME then resetRotate E s
  else s

/-- The callback `cbKeyboard(key, x, y)`. -/
def cbKeyboard {α : Type} [LinearOrderedField α] (E : CEnv α)
    (key : Char) (_x _y : Int) (s : Globals α) : Globals α :=
  if key = 'h' then { s with g_disp_guide := !s.g_disp_guide }
  else if key = 'a' then { s with g_disp_xyz_axis := !s.g_disp_xyz_axis }
  else if key = 'g' then { s with g_disp_grid := !s.g_disp_grid }
  else if key = 'l' then { s with g_disp_depth_bar := !s.g_disp_depth_bar }
  else if key = 'p' then { s with g_disp_depth := !s.g_disp_depth }
  else if key = 'w' then { s with g_eye_z := s.g_eye_z - 0.1 }
  else if key = 'r' then { s with g_eye_z := s.g_eye_z + 0.1 }
  else if key = 's' then { s with g_eye_x := s.g_eye_x - 0.1 }
  else if key = 'f' then { s with g_eye_x := s.g_eye_x + 0.1 }
  else if key = 'e' then { s with g_eye_y := s.g_eye_y + 0.1 }
  else if key = 'd' then { s with g_eye_y := s.g_eye_y - 0.1 }
  else if key = 'c' then resetRotate E s
  else if key = 'Z' ∨ key = 'z' then
    let isZoomIn : Int := if key = 'Z' then -1 else 1
    zoomBy isZoomIn s
  else s

/-- The callback `cbReshape(width, height)` (its effect on the variables). -/
def cbReshape {α : Type} [LinearOrderedField α] (width height : Int) (s : Globals α) : Globals α :=
  { s with g_sx := 1 / (width : α), g_sy := 1 / (height : α) }

/-! ## Drawing -/

/-- One point as `dispDepthPoints` draws it: `idx` is the index
`depth + g_depth_min` at which the three channels of the colour table are read,
`vx vy vz` the vertex passed to `glVertex3f`. -/
structure DrawnPoint (α : Type) where
  idx : Int
  vx : α
  vy : α
  vz : α

/-- Loop body of `dispDepthPoints` for the point of index `i`. -/
def drawPoint {α : Type} [LinearOrderedField α] [FloorRing α] (s : Globals α) (i : Nat) :
    DrawnPoint α :=
  let f_x := (s.g_ply.pt i).x
  let f_y := (s.g_ply.pt i).y
  let f_z := (s.g_ply.pt i).z
  let depth : Int := truncToInt f_z
  { idx := wrap32 (depth + s.g_depth_min)
    vx := f_x / (s.g_wheel : α) + s.g_offset_x
    vy := f_y / (s.g_wheel : α) + s.g_offset_y
    vz := f_z / (s.g_wheel : α) + s.g_offset_z }

/-- The points `dispDepthPoints()` draws, in order. -/
def dispDepthPoints {α : Type} [LinearOrderedField α] [FloorRing α] (s : Globals α) :
    List (DrawnPoint α) :=
  if s.g_disp_depth = false then []
  else (List.range s.g_ply.cnt.toNat).map (drawPoint s)

/-- The callback `cbDisplay()`: its effect on the variables (with the
assignment `g_ns = g_ply.ns` its call of `dispDepthPoints` makes). -/
def cbDisplay {α : Type} (s : Globals α) : Globals α :=
  if s.g_glut_inited = false then
    if s.g_glut_running = false then
      if s.g_gl_win_id ≥ 0 then { s with g_gl_win_id := -1 } else s
    else s
  else
    let s := { s with g_tgt_x := s.g_eye_x }
    let s := { s with g_tgt_y := s.g_eye_y }
    { s with g_ns := s.g_ply.ns }

/-- The point `update3dData` stores in slot `i`: `ply_dat` is the `int16_t`
buffer, read three values per point. -/
def storedPoint {α : Type} [LinearOrderedField α] (g_depth_min : Int) (ply_dat : Nat → Int)
    (i : Nat) : pt_3d_t α :=
  let x := ply_dat (3 * i)
  let y := ply_dat (3 * i + 1)
  let z := ply_dat (3 * i + 2)
  { x := (x : α)
    y := (y : α)
    z := if (z : α) > (g_depth_min : α) then ((wrap32 (z - g_depth_min) : Int) : α) else 65535 }

/-- Loop body of `update3dData` for the point of index `i`. -/
def storePoint {α : Type} [LinearOrderedField α] (g_depth_min : Int) (ply_dat : Nat → Int)
    (i : Nat) (pt : Nat → pt_3d_t α) : Nat → pt_3d_t α :=
  Function.update pt i (storedPoint g_depth_min ply_dat i)

/-- The function `update3dData(ts_ns, ply_dat, ply_cnt)`. -/
def update3dData {α : Type} [LinearOrderedField α] (ts_ns : α) (ply_dat : Nat → Int)
    (ply_cnt : Int) (s : Globals α) : Globals α :=
  if s.g_glut_inited = false then s
  else if s.g_glut_running = false then s
  else
    let s := { s with g_ply := { s.g_ply with ns := ts_ns } }
    let s := { s with g_ply := { s.g_ply with cnt := ply_cnt } }
    { s with g_ply := { s.g_ply with
        pt := forLoop 0 s.g_ply.cnt.toNat (storePoint s.g_depth_min ply_dat) s.g_ply.pt } }

/-- The part of `mainPtCloudView(fov_y, z_far, title)` that runs before
`glutMainLoop()`; `win_id` is the value `glutCreateWindow` returns. -/
def mainPtCloudView {α : Type} [LinearOrderedField α] (E : CEnv α) (fov_y z_far : α)
    (win_id : Int) (s : Globals α) : Globals α :=
  let s := { s with g_fov_y := fov_y, g_z_far := z_far }
  let s := { s with g_glut_inited := true }
  let s := { s with g_gl_win_id := win_id }
  let s := resetRotate E s
  let s := { s with g_rt := qRot s.g_cq }
  { s with g_glut_running := true }

/-- The function `mainPtCloudViewExit()`. -/
def mainPtCloudViewExit {α : Type} (s : Globals α) : Globals α :=
  if s.g_glut_inited = true ∨ s.g_glut_running = true then
    { s with g_glut_inited := false, g_glut_running := false,
             glut_leave_calls := s.glut_leave_calls + 1 }
  else s

/-! ## Runs of the viewer -/

/-- What can happen to the variables once `mainPtCloudView` is in the main
loop: a GLUT callback, or a call of the interface from the capture side. -/
inductive Event (α : Type) where
  | mouse (k_state : Nat) (button state x y : Int)
  | mouseWheel (wheel_number direction x y : Int)
  | motion (k_state : Nat) (x y : Int)
  | specialKey (key x y : Int)
  | keyboard (key : Char) (x y : Int)
  | reshape (width height : Int)
  | display
  | update3d (ts_ns : α) (ply_dat : Nat → Int) (ply_cnt : Int)
  | exit

/-- The state after one event. -/
def step {α : Type} [LinearOrderedField α] (E : CEnv α) (s : Globals α) : Event α → Globals α
  | .mouse k button state x y => cbMouse E k button state x y s
  | .mouseWheel n d x y => cbMouseWheel n d x y s
  | .motion k x y => cbMotion E k x y s
  | .specialKey key x y => cbSpecialKey E key x y s
  | .keyboard key x y => cbKeyboard E key x y s
  | .reshape w h => cbReshape w h s
  | .display => cbDisplay s
  | .update3d ts dat cnt => update3dData ts dat cnt s
  | .exit => mainPtCloudViewExit s

/-- The state after a list of events, oldest first. -/
def run {α : Type} [LinearOrderedField α] (E : CEnv α) (s : Globals α) (evs : List (Event α)) :
    Globals α :=
  evs.foldl (step E) s

/-- The states the viewer can be in: the one `mainPtCloudView` sets up from
the initial variables, and every state one event later. -/
inductive Reachable {α : Type} [LinearOrderedField α] (E : CEnv α) : Globals α → Prop where
  | start (fov_y z_far : α) (win_id : Int) :
      Reachable E (mainPtCloudView E fov_y z_far win_id initGlobals)
  | next (s : Globals α) (ev : Event α) : Reachable E s → Reachable E (step E s ev)

/-! ## Classes of inputs -/

/-- The value `zoomBy d` leaves in `g_wheel`, from the value `w` it finds. -/
def zoomWheel (d w : Int) : Int :=
  let v := wrap32 (w + wrap32 (15 * d))
  if v ≤ 15 then 15 else v

/-- The zoom-in inputs of the key and button callbacks, which subtract 15 from
`g_wheel`: F11, `Z`, and the wheel delivered to `cbMouse` as button 3 without
modifier. -/
def subtracts15 {α : Type} : Event α → Prop
  | .specialKey key _ _ => key = GLUT_KEY_F11
  | .keyboard key _ _ => key = 'Z'
  | .mouse k_state button _ _ _ => noModifier k_state ∧ button = 3
  | _ => False

/-- The normalised position in the words of the specification:
`floor((i - rangeMin) * span / (rangeMax - rangeMin)) + 255` in exact
arithmetic, for `rangeMin ≤ i`. -/
def normalisedPos (rangeMin rangeMax span i : Nat) : Int :=
  (((i - rangeMin) * span / (rangeMax - rangeMin) : Nat) : Int) + 255

/-- A four-cell array `(w, x, y, z)` as the element `w + x i + y j + z k` of the
quaternion algebra over `R`, where `i^2 = j^2 = k^2 = ijk = -1`. -/
def toQuaternion {R : Type} [CommRing R] (q : Fin 4 → R) : Quaternion R :=
  ⟨q 0, q 1, q 2, q 3⟩

/-- Entry (row, col) of the product `a * b` of two 4x4 matrices held in
column-major 16-cell arrays. -/
def matMulEntry {α : Type} [Ring α] (a b : Fin 16 → α) (row col : Fin 4) : α :=
  matEntry a row 0 * matEntry b 0 col + matEntry a row 1 * matEntry b 1 col
    + matEntry a row 2 * matEntry b 2 col + matEntry a row 3 * matEntry b 3 col

/-! ## Lemmas: loops and the colour table -/

theorem forCount_setRGB (f : Nat → Nat × Nat × Nat) (n : Nat) :
    ∀ (lo : Nat) (t : ColorTbl) (c : Fin 3) (j : Nat),
      forCount (fun i t => setRGB t i (f i).1 (f i).2.1 (f i).2.2) lo n t c j
        = if lo ≤ j ∧ j < lo + n then chan c (f j) else t c j := by
  induction n with
  | zero =>
    intro lo t c j
    have h0 : ¬ (lo ≤ j ∧ j < lo + 0) := by omega
    rw [forCount, if_neg h0]
  | succ n ih =>
    intro lo t c j
    rw [forCount, ih]
    by_cases h1 : lo + 1 ≤ j ∧ j < lo + 1 + n
    · have h2 : lo ≤ j ∧ j < lo + (n + 1) := by omega
      simp [h1, h2]
    · by_cases h3 : j = lo
      · subst h3
        simp [setRGB]
      · have h2 : ¬ (lo ≤ j ∧ j < lo + (n + 1)) := by omega
        simp [h1, h2, setRGB, h3]

/-- A loop of checked stores is the loop of the stores when every index is in
the table, and fails otherwise. -/
theorem forCountOpt_storeRGB (f : Nat → Nat × Nat × Nat) (n : Nat) :
    ∀ (lo : Nat) (t : ColorTbl),
      forCountOpt (fun i t => storeRGB t i (f i).1 (f i).2.1 (f i).2.2) lo n t
        = if n = 0 ∨ lo + n ≤ 65536 then
            some (forCount (fun i t => setRGB t i (f i).1 (f i).2.1 (f i).2.2) lo n t)
          else none := by
  induction n with
  | zero =>
    intro lo t
    rw [forCountOpt, forCount, if_pos (Or.inl rfl)]
  | succ n ih =>
    intro lo t
    rw [forCountOpt, forCount]
    by_cases hlo : lo < 65536
    · have hb : storeRGB t lo (f lo).1 (f lo).2.1 (f lo).2.2
          = some (setRGB t lo (f lo).1 (f lo).2.1 (f lo).2.2) := by
        unfold storeRGB
        rw [if_pos hlo]
      simp only [hb, Option.some_bind]
      rw [ih]
      by_cases h : n = 0 ∨ lo + 1 + n ≤ 65536
      · rw [if_pos h, if_pos (Or.inr (by omega))]
      · rw [if_neg h, if_neg (by omega)]
    · have hb : storeRGB t lo (f lo).1 (f lo).2.1 (f lo).2.2 = none := by
        unfold storeRGB
        rw [if_neg hlo]
      simp only [hb, Option.none_bind]
      rw [if_neg (by omega)]

theorem forLoopOpt_storeRGB (f : Nat → Nat × Nat × Nat) (lo hi : Nat) (t : ColorTbl) :
    forLoopOpt lo hi (fun i t => storeRGB t i (f i).1 (f i).2.1 (f i).2.2) t
      = if hi ≤ lo ∨ hi ≤ 65536 then
          some (fun c j => if lo ≤ j ∧ j < hi then chan c (f j) else t c j)
        else none := by
  rw [forLoopOpt, forCountOpt_storeRGB]
  by_cases h : hi ≤ lo ∨ hi ≤ 65536
  · rw [if_pos h, if_pos (by omega)]
    congr 1
    funext c j
    rw [forCount_setRGB]
    by_cases h2 : lo ≤ j ∧ j < hi
    · rw [if_pos h2, if_pos (by omega)]
    · rw [if_neg h2, if_neg (by omega)]
  · rw [if_neg h, if_neg (by omega)]

theorem chan_const (c : Fin 3) (v : Nat) : chan c (v, v, v) = v := by
  unfold chan
  split_ifs <;> rfl

/-- The call `makeColorTbl(min_val, max_val, range)` stores outside the table
when `max_val` or `min_val` exceeds 65536. -/
theorem makeColorTbl_none (t : ColorTbl) (min_val max_val range : Nat)
    (h : 65536 < max_val ∨ 65536 < min_val) : makeColorTbl t min_val max_val range = none := by
  unfold makeColorTbl rampStore
  simp only []
  rw [forLoopOpt_storeRGB (fun i => rampRGB min_val max_val range i)]
  by_cases hmax : max_val ≤ 0 ∨ max_val ≤ 65536
  · have hmin : ¬ (min_val ≤ 0 ∨ min_val ≤ 65536) := by omega
    rw [if_pos hmax, Option.some_bind, forLoopOpt_storeRGB (fun _ => (255, 255, 255)),
      if_neg hmin, Option.none_bind]
  · rw [if_neg hmax, Option.none_bind]

/-- Closed form of every cell of the table `makeColorTbl` leaves when its
bounds are within the table. -/
theorem makeColorTbl_some (t : ColorTbl) (min_val max_val range : Nat)
    (hmin : min_val ≤ 65536) (hmax : max_val ≤ 65536) :
    ∃ tbl, makeColorTbl t min_val max_val range = some tbl ∧
      (∀ (c : Fin 3) (j : Nat), tbl c j =
        if max_val ≤ j ∧ j < 65536 then 0
        else if j < min_val then 255
        else if j < max_val then chan c (rampRGB min_val max_val range j)
        else t c j) ∧
      (∀ j : Nat, rgbAt tbl j =
        if max_val ≤ j ∧ j < 65536 then (0, 0, 0)
        else if j < min_val then (255, 255, 255)
        else if j < max_val then rampRGB min_val max_val range j
        else rgbAt t j) := by
  have hcell : makeColorTbl t min_val max_val range = some (fun c j =>
      if max_val ≤ j ∧ j < 65536 then 0
      else if j < min_val then 255
      else if j < max_val then chan c (rampRGB min_val max_val range j)
      else t c j) := by
    unfold makeColorTbl rampStore
    simp only []
    rw [forLoopOpt_storeRGB (fun i => rampRGB min_val max_val range i), if_pos (Or.inr hmax),
      Option.some_bind, forLoopOpt_storeRGB (fun _ => (255, 255, 255)), if_pos (Or.inr hmin),
      Option.some_bind, forLoopOpt_storeRGB (fun _ => (0, 0, 0)), if_pos (Or.inr (le_refl _))]
    simp only [chan_const, Nat.zero_le, true_and]
  refine ⟨_, hcell, fun c j => rfl, ?_⟩
  intro j
  unfold rgbAt
  simp only []
  split_ifs <;> simp [chan]

/-! ## The colour table: white below the range, black from its end -/

/-- C1 as stated fails. After `makeColorTbl(100, 50, 1000)` the entry at index
70, which is below `rangeMin = 100`, is black and not white (the loop that
blackens the indices from `rangeMax` on runs last). And
`makeColorTbl(300, 65537, 2000)` stores outside the table (its first loop runs
up to index 65536), so no entry, that at index 260 included, has a defined
value after it. -/
theorem makeColorTbl_below_min_not_white :
    ((70 < 100 ∧ 70 ≤ 65535) ∧
      ∃ tbl, makeColorTbl (fun _ _ => 0) 100 50 1000 = some tbl ∧
        rgbAt tbl 70 = (0, 0, 0) ∧ rgbAt tbl 70 ≠ (255, 255, 255)) ∧
    ((260 < 300 ∧ 260 ≤ 65535) ∧ makeColorTbl (fun _ _ => 0) 300 65537 2000 = none) := by
  refine ⟨⟨by decide, ?_⟩, by decide, makeColorTbl_none _ _ _ _ (Or.inl (by decide))⟩
  obtain ⟨tbl, h, _, hrgb⟩ :=
    makeColorTbl_some (fun _ _ => 0) 100 50 1000 (by decide) (by decide)
  refine ⟨tbl, h, ?_⟩
  rw [hrgb]
  decide

/-- C1, amended: after `makeColorTbl(rangeMin, rangeMax, span)` with
`rangeMin ≤ 65536` and `rangeMax ≤ 65536` (the stores stay inside the table),
for every `span`, every earlier content of the table and every table index
`i ≤ 65535` with `i < rangeMin` and `i < rangeMax`, the entry at `i` is exactly
white `(255, 255, 255)`. -/
theorem makeColorTbl_below_min_white (t : ColorTbl) (rangeMin rangeMax span i : Nat)
    (hmin : rangeMin ≤ 65536) (hmax : rangeMax ≤ 65536)
    (h1 : i < rangeMin) (h2 : i < rangeMax) (_h3 : i ≤ 65535) :
    ∃ tbl, makeColorTbl t rangeMin rangeMax span = some tbl ∧
      rgbAt tbl i = (255, 255, 255) := by
  obtain ⟨tbl, h, _, hrgb⟩ := makeColorTbl_some t rangeMin rangeMax span hmin hmax
  refine ⟨tbl, h, ?_⟩
  have h4 : ¬ (rangeMax ≤ i ∧ i < 65536) := by omega
  rw [hrgb, if_neg h4, if_pos h1]

/-- Witness of C1 amended: index 100 after `makeColorTbl(500, 4000, 1000)`. -/
theorem makeColorTbl_below_min_white_witness :
    ∃ tbl, makeColorTbl (fun _ _ => 0) 500 4000 1000 = some tbl ∧
      rgbAt tbl 100 = (255, 255, 255) :=
  makeColorTbl_below_min_white (fun _ _ => 0) 500 4000 1000 100 (by decide) (by decide)
    (by decide) (by decide) (by decide)

/-- C2 as stated fails: `makeColorTbl(65537, 100, 1000)` has `rangeMax ≤ 65536`,
but its loop that whitens the indices below `rangeMin` runs up to index 65536
and stores outside the table, so no entry, that at index 4500 included, has a
defined value after it. -/
theorem makeColorTbl_min_past_table :
    (100 ≤ 65536 ∧ 100 ≤ 4500 ∧ 4500 ≤ 65535) ∧
    makeColorTbl (fun _ _ => 0) 65537 100 1000 = none :=
  ⟨by decide, makeColorTbl_none _ _ _ _ (Or.inr (by decide))⟩

/-- C2, amended: after `makeColorTbl(rangeMin, rangeMax, span)` with
`rangeMax ≤ 65536` and `rangeMin ≤ 65536` (the stores stay inside the table),
for every `span`, every earlier content of the table and every index `i` with
`rangeMax ≤ i ≤ 65535`, the entry at `i` is exactly black `(0, 0, 0)`. -/
theorem makeColorTbl_from_max_black (t : ColorTbl) (rangeMin rangeMax span i : Nat)
    (hmax : rangeMax ≤ 65536) (hmin : rangeMin ≤ 65536) (h1 : rangeMax ≤ i) (h2 : i ≤ 65535) :
    ∃ tbl, makeColorTbl t rangeMin rangeMax span = some tbl ∧ rgbAt tbl i = (0, 0, 0) := by
  obtain ⟨tbl, h, _, hrgb⟩ := makeColorTbl_some t rangeMin rangeMax span hmin hmax
  refine ⟨tbl, h, ?_⟩
  have h4 : rangeMax ≤ i ∧ i < 65536 := by omega
  rw [hrgb, if_pos h4]

/-- Witness of C2 amended: index 4500 after `makeColorTbl(500, 4000, 1000)`. -/
theorem makeColorTbl_from_max_black_witness :
    ∃ tbl, makeColorTbl (fun _ _ => 0) 500 4000 1000 = some tbl ∧ rgbAt tbl 4500 = (0, 0, 0) :=
  makeColorTbl_from_max_black (fun _ _ => 0) 500 4000 1000 4500 (by decide) (by decide)
    (by decide) (by decide)

/-! ## Rounding to a `double` -/

theorem roundHalfEven_floor_le (y : ℚ) : ⌊y⌋ ≤ roundHalfEven y := by
  unfold roundHalfEven
  split_ifs <;> omega

theorem roundHalfEven_le_floor_succ (y : ℚ) : roundHalfEven y ≤ ⌊y⌋ + 1 := by
  unfold roundHalfEven
  split_ifs <;> omega

theorem roundHalfEven_le (y : ℚ) (K : Int) (h : y ≤ K) : roundHalfEven y ≤ K := by
  have hf : ⌊y⌋ ≤ K := Int.floor_le_iff.mpr (by linarith)
  rcases lt_or_eq_of_le hf with h1 | h1
  · have := roundHalfEven_le_floor_succ y
    omega
  · have hy : y = K := by
      have := Int.floor_le y
      rw [h1] at this
      exact le_antisymm h this
    unfold roundHalfEven
    rw [hy, Int.floor_intCast, if_pos (by norm_num)]

theorem roundHalfEven_ge (y : ℚ) (K : Int) (h : (K : ℚ) ≤ y) : K ≤ roundHalfEven y :=
  le_trans (Int.le_floor.mpr h) (roundHalfEven_floor_le y)

theorem roundHalfEven_eq (y : ℚ) (m : Int) (h1 : (m : ℚ) - 1 / 2 < y) (h2 : y < m + 1 / 2) :
    roundHalfEven y = m := by
  have hfl := Int.floor_le y
  have hlt := Int.lt_floor_add_one y
  have hf1 : m - 1 ≤ ⌊y⌋ := by
    apply Int.le_floor.mpr
    push_cast
    linarith
  have hf2 : ⌊y⌋ ≤ m := by
    have : (⌊y⌋ : ℚ) < m + 1 := by linarith
    have : ⌊y⌋ < m + 1 := by exact_mod_cast this
    omega
  rcases (by omega : ⌊y⌋ = m ∨ ⌊y⌋ = m - 1) with h | h
  · unfold roundHalfEven
    rw [h, if_pos (by linarith)]
  · unfold roundHalfEven
    rw [h]
    push_cast
    rw [if_neg (by linarith), if_pos (by linarith)]
    ring

theorem roundHalfEven_sub (y : ℚ) :
    (roundHalfEven y : ℚ) - y ≤ 1 / 2 ∧ y - (roundHalfEven y : ℚ) ≤ 1 / 2 := by
  have hfl := Int.floor_le y
  have hlt := Int.lt_floor_add_one y
  unfold roundHalfEven
  split_ifs with h1 h2 h3 <;> push_cast <;> constructor <;> linarith

theorem roundDouble_pos_eq (x : ℚ) (hx : 0 < x) :
    roundDouble x =
      (roundHalfEven (x / 2 ^ (Int.log 2 x - 52)) : ℚ) * 2 ^ (Int.log 2 x - 52) := by
  unfold roundDouble
  rw [if_neg (ne_of_gt hx), abs_of_pos hx]

theorem roundDouble_zero : roundDouble 0 = 0 := by
  unfold roundDouble
  rw [if_pos rfl]

theorem two_zpow_log_le (x : ℚ) (hx : 0 < x) : (2 : ℚ) ^ (Int.log 2 x) ≤ x :=
  Int.zpow_log_le_self (by norm_num) hx

theorem roundDouble_nonneg (x : ℚ) (hx : 0 ≤ x) : 0 ≤ roundDouble x := by
  rcases eq_or_lt_of_le hx with h | h
  · rw [← h, roundDouble_zero]
  · rw [roundDouble_pos_eq x h]
    apply mul_nonneg
    · have : (0 : ℚ) ≤ x / 2 ^ (Int.log 2 x - 52) := by positivity
      exact_mod_cast roundHalfEven_ge _ 0 (by exact_mod_cast this)
    · positivity

/-- A positive value `k * 2^z` with `k < 2^53` and `z` not below the unit of the
binade of `x` is an integer multiple of that unit. -/
theorem representable_multiple (k : Nat) (z e : Int) (hz : e - 52 ≤ z) :
    ((k : ℚ) * 2 ^ z) / 2 ^ (e - 52) = ((k * 2 ^ (z - (e - 52)).toNat : Nat) : ℚ) := by
  have hn : ((z - (e - 52)).toNat : Int) = z - (e - 52) := Int.toNat_of_nonneg (by omega)
  have hp : (2 : ℚ) ^ z = 2 ^ (z - (e - 52)).toNat * 2 ^ (e - 52) := by
    rw [← zpow_natCast, hn, ← zpow_add₀ (by norm_num)]
    congr 1
    ring
  have hu : (2 : ℚ) ^ (e - 52) ≠ 0 := by positivity
  rw [hp]
  push_cast
  field_simp
  ring

theorem small_below_binade (k : Nat) (z e : Int) (hk : k < 2 ^ 53) (hz : ¬ e - 52 ≤ z) :
    (k : ℚ) * 2 ^ z < 2 ^ e := by
  have h1 : (2 : ℚ) ^ z ≤ 2 ^ (e - 53) := zpow_le_zpow_right₀ (by norm_num) (by omega)
  have hk2 : (k : ℚ) < 2 ^ 53 := by exact_mod_cast hk
  have h3 : (2 : ℚ) ^ e = 2 ^ 53 * 2 ^ (e - 53) := by
    rw [show e = 53 + (e - 53) by ring, zpow_add₀ (by norm_num)]
    norm_num
  rw [h3]
  have hpos : (0 : ℚ) < 2 ^ (e - 53) := by positivity
  calc (k : ℚ) * 2 ^ z ≤ k * 2 ^ (e - 53) := by
        apply mul_le_mul_of_nonneg_left h1 (by positivity)
    _ < 2 ^ 53 * 2 ^ (e - 53) := by
        apply mul_lt_mul_of_pos_right hk2 hpos

/-- Rounding to the nearest `double` does not pass a `double`: above. -/
theorem roundDouble_le (x : ℚ) (k : Nat) (z : Int) (hx : 0 < x) (hk : k < 2 ^ 53)
    (h : x ≤ k * 2 ^ z) : roundDouble x ≤ k * 2 ^ z := by
  rw [roundDouble_pos_eq x hx]
  have he := two_zpow_log_le x hx
  have hu : (0 : ℚ) < 2 ^ (Int.log 2 x - 52) := by positivity
  by_cases hz : Int.log 2 x - 52 ≤ z
  · have hK := representable_multiple k z (Int.log 2 x) hz
    have hy : x / 2 ^ (Int.log 2 x - 52) ≤ ((k * 2 ^ (z - (Int.log 2 x - 52)).toNat : Nat) : Int) := by
      push_cast
      push_cast at hK
      rw [← hK]
      exact div_le_div_of_nonneg_right h (le_of_lt hu)
    have hr := roundHalfEven_le _ _ hy
    have hr2 : (roundHalfEven (x / 2 ^ (Int.log 2 x - 52)) : ℚ)
        ≤ ((k * 2 ^ (z - (Int.log 2 x - 52)).toNat : Nat) : ℚ) := by exact_mod_cast hr
    calc (roundHalfEven (x / 2 ^ (Int.log 2 x - 52)) : ℚ) * 2 ^ (Int.log 2 x - 52)
        ≤ ((k * 2 ^ (z - (Int.log 2 x - 52)).toNat : Nat) : ℚ) * 2 ^ (Int.log 2 x - 52) :=
          mul_le_mul_of_nonneg_right hr2 (le_of_lt hu)
      _ = (k : ℚ) * 2 ^ z := by
          rw [← hK]
          field_simp
  · have := small_below_binade k z (Int.log 2 x) hk hz
    linarith

/-- Rounding to the nearest `double` does not pass a `double`: below. -/
theorem roundDouble_ge (x : ℚ) (k : Nat) (z : Int) (hx : 0 < x) (hk : k < 2 ^ 53)
    (h : (k : ℚ) * 2 ^ z ≤ x) : (k : ℚ) * 2 ^ z ≤ roundDouble x := by
  rw [roundDouble_pos_eq x hx]
  have he := two_zpow_log_le x hx
  have hu : (0 : ℚ) < 2 ^ (Int.log 2 x - 52) := by positivity
  by_cases hz : Int.log 2 x - 52 ≤ z
  · have hK := representable_multiple k z (Int.log 2 x) hz
    have hy : (((k * 2 ^ (z - (Int.log 2 x - 52)).toNat : Nat) : Int) : ℚ)
        ≤ x / 2 ^ (Int.log 2 x - 52) := by
      push_cast
      push_cast at hK
      rw [← hK]
      exact div_le_div_of_nonneg_right h (le_of_lt hu)
    have hr := roundHalfEven_ge _ _ hy
    have hr2 : ((k * 2 ^ (z - (Int.log 2 x - 52)).toNat : Nat) : ℚ)
        ≤ (roundHalfEven (x / 2 ^ (Int.log 2 x - 52)) : ℚ) := by exact_mod_cast hr
    calc (k : ℚ) * 2 ^ z
        = ((k * 2 ^ (z - (Int.log 2 x - 52)).toNat : Nat) : ℚ) * 2 ^ (Int.log 2 x - 52) := by
          rw [← hK]
          field_simp
      _ ≤ (roundHalfEven (x / 2 ^ (Int.log 2 x - 52)) : ℚ) * 2 ^ (Int.log 2 x - 52) :=
          mul_le_mul_of_nonneg_right hr2 (le_of_lt hu)
  · have h1 := small_below_binade k z (Int.log 2 x) hk hz
    have h2 : (2 : ℚ) ^ (Int.log 2 x) = 2 ^ 52 * 2 ^ (Int.log 2 x - 52) := by
      rw [show Int.log 2 x = 52 + (Int.log 2 x - 52) by ring, zpow_add₀ (by norm_num)]
      norm_num
    have hy : (((2 ^ 52 : Nat) : Int) : ℚ) ≤ x / 2 ^ (Int.log 2 x - 52) := by
      rw [le_div_iff₀ hu]
      push_cast
      rw [h2] at he
      exact he
    have hr := roundHalfEven_ge _ _ hy
    have hr2 : ((2 : ℚ) ^ 52) ≤ (roundHalfEven (x / 2 ^ (Int.log 2 x - 52)) : ℚ) := by
      exact_mod_cast hr
    calc (k : ℚ) * 2 ^ z ≤ 2 ^ (Int.log 2 x) := le_of_lt h1
      _ = 2 ^ 52 * 2 ^ (Int.log 2 x - 52) := h2
      _ ≤ (roundHalfEven (x / 2 ^ (Int.log 2 x - 52)) : ℚ) * 2 ^ (Int.log 2 x - 52) :=
          mul_le_mul_of_nonneg_right hr2 (le_of_lt hu)

/-- A `double` is its own rounding. -/
theorem roundDouble_representable (k : Nat) (z : Int) (hk : k < 2 ^ 53) :
    roundDouble ((k : ℚ) * 2 ^ z) = (k : ℚ) * 2 ^ z := by
  rcases Nat.eq_zero_or_pos k with h0 | h0
  · rw [h0]
    simp [roundDouble_zero]
  · have hx : (0 : ℚ) < (k : ℚ) * 2 ^ z := by positivity
    exact le_antisymm (roundDouble_le _ k z hx hk (le_refl _))
      (roundDouble_ge _ k z hx hk (le_refl _))

/-- The rounding of `x` when the binade and the nearest multiple of its unit
`u` are known. -/
theorem roundDouble_eval (x u : ℚ) (e m : Int) (hu : u = 2 ^ (e - 52))
    (h1 : 2 ^ 52 * u ≤ x) (h2 : x < 2 ^ 53 * u) (h3 : (m : ℚ) - 1 / 2 < x / u)
    (h4 : x / u < m + 1 / 2) : roundDouble x = m * u := by
  have hupos : 0 < u := by rw [hu]; positivity
  have hx : 0 < x := lt_of_lt_of_le (by positivity) h1
  have e1 : (2 : ℚ) ^ e = 2 ^ 52 * u := by
    rw [hu, show e = 52 + (e - 52) by ring, zpow_add₀ (by norm_num)]
    norm_num
  have e2 : (2 : ℚ) ^ (e + 1) = 2 ^ 53 * u := by
    rw [hu, show e + 1 = 53 + (e - 52) by ring, zpow_add₀ (by norm_num)]
    norm_num
  have hlog1 : e ≤ Int.log 2 x := by
    rw [← Int.zpow_le_iff_le_log (by norm_num) hx]
    push_cast
    rw [e1]
    exact h1
  have hlog2 : Int.log 2 x < e + 1 := by
    rw [← Int.lt_zpow_iff_log_lt (by norm_num) hx]
    push_cast
    rw [e2]
    exact h2
  have hlog : Int.log 2 x = e := by omega
  rw [roundDouble_pos_eq x hx, hlog, ← hu, roundHalfEven_eq (x / u) m h3 h4]

/-- The relative error of a rounding is at most `2^-53`. -/
theorem roundDouble_rel (x : ℚ) (hx : 0 ≤ x) :
    x * (1 - 1 / 2 ^ 53) ≤ roundDouble x ∧ roundDouble x ≤ x * (1 + 1 / 2 ^ 53) := by
  rcases eq_or_lt_of_le hx with h | h
  · rw [← h, roundDouble_zero]
    simp
  · rw [roundDouble_pos_eq x h]
    have he := two_zpow_log_le x h
    have hu : (0 : ℚ) < 2 ^ (Int.log 2 x - 52) := by positivity
    have h2 : (2 : ℚ) ^ (Int.log 2 x) = 2 ^ 52 * 2 ^ (Int.log 2 x - 52) := by
      rw [show Int.log 2 x = 52 + (Int.log 2 x - 52) by ring, zpow_add₀ (by norm_num)]
      norm_num
    rw [h2] at he
    generalize (2 : ℚ) ^ (Int.log 2 x - 52) = u at hu he
    have hy : (2 : ℚ) ^ 52 ≤ x / u := by
      rw [le_div_iff₀ hu]
      exact he
    have hr := roundHalfEven_sub (x / u)
    have hxu : x = (x / u) * u := by field_simp
    generalize x / u = y at hy hr hxu
    rw [hxu]
    constructor
    · have : y * (1 - 1 / 2 ^ 53) ≤ (roundHalfEven y : ℚ) := by
        norm_num at hy ⊢
        linarith [hr.2]
      calc y * u * (1 - 1 / 2 ^ 53) = y * (1 - 1 / 2 ^ 53) * u := by ring
        _ ≤ (roundHalfEven y : ℚ) * u := mul_le_mul_of_nonneg_right this (le_of_lt hu)
    · have : (roundHalfEven y : ℚ) ≤ y * (1 + 1 / 2 ^ 53) := by
        norm_num at hy ⊢
        linarith [hr.1]
      calc (roundHalfEven y : ℚ) * u ≤ y * (1 + 1 / 2 ^ 53) * u :=
            mul_le_mul_of_nonneg_right this (le_of_lt hu)
        _ = y * u * (1 + 1 / 2 ^ 53) := by ring

/-! ## The colour ramp inside the range -/

theorem usub32_of_le (a b : Nat) (h1 : b ≤ a) (h2 : a < 4294967296) : usub32 a b = a - b := by
  unfold usub32
  omega

theorem toShort_of_range (v : Int) (h1 : -32768 ≤ v) (h2 : v < 32768) : toShort v = v := by
  unfold toShort
  omega

theorem scaledPos_in_range (rangeMin rangeMax span i : Nat) (h1 : rangeMin ≤ i)
    (h2 : i < rangeMax) (h3 : rangeMax ≤ 65536) :
    scaledPos rangeMin rangeMax span i =
      roundDouble (roundDouble (((i - rangeMin : Nat) : ℚ) / ((rangeMax - rangeMin : Nat) : ℚ))
        * (span : ℚ)) := by
  unfold scaledPos
  rw [usub32_of_le i rangeMin h1 (by omega), usub32_of_le rangeMax rangeMin (by omega) (by omega)]

/-- Two roundings of `a / b * span` with `a < b ≤ 65536` and `span ≤ 32000`: the
result is between 0 and `span * 65535 / 65536`. -/
theorem roundDouble_scaled_bounds (a b span : Nat) (ha : a < b) (hb : b ≤ 65536)
    (hs : span ≤ 32000) :
    0 ≤ roundDouble (roundDouble ((a : ℚ) / (b : ℚ)) * (span : ℚ)) ∧
    roundDouble (roundDouble ((a : ℚ) / (b : ℚ)) * (span : ℚ)) ≤ (span : ℚ) * (65535 / 65536) := by
  have hbpos : (0 : ℚ) < (b : ℚ) := by exact_mod_cast (by omega : 0 < b)
  have hq0 : (0 : ℚ) ≤ (a : ℚ) / (b : ℚ) := by positivity
  have hz : (2 : ℚ) ^ (-16 : Int) = 1 / 65536 := by norm_num [zpow_neg]
  have hq1 : (a : ℚ) / (b : ℚ) ≤ ((65535 : Nat) : ℚ) * 2 ^ (-16 : Int) := by
    rw [hz, div_le_iff₀ hbpos]
    have h1 : (a : ℚ) + 1 ≤ b := by exact_mod_cast ha
    have h2 : (b : ℚ) ≤ 65536 := by exact_mod_cast hb
    push_cast
    linarith
  have hr0 := roundDouble_nonneg _ hq0
  have hr1 : roundDouble ((a : ℚ) / (b : ℚ)) ≤ ((65535 : Nat) : ℚ) * 2 ^ (-16 : Int) := by
    rcases eq_or_lt_of_le hq0 with h | h
    · rw [← h, roundDouble_zero]
      positivity
    · exact roundDouble_le _ 65535 (-16) h (by norm_num) hq1
  have hs0 : (0 : ℚ) ≤ (span : ℚ) := by positivity
  have hx0 : (0 : ℚ) ≤ roundDouble ((a : ℚ) / (b : ℚ)) * (span : ℚ) := mul_nonneg hr0 hs0
  have hx1 : roundDouble ((a : ℚ) / (b : ℚ)) * (span : ℚ)
      ≤ ((65535 * span : Nat) : ℚ) * 2 ^ (-16 : Int) := by
    have := mul_le_mul_of_nonneg_right hr1 hs0
    push_cast at this ⊢
    linarith
  have hk : 65535 * span < 2 ^ 53 := by
    have : (2 : Nat) ^ 53 = 9007199254740992 := by norm_num
    omega
  refine ⟨roundDouble_nonneg _ hx0, ?_⟩
  have hfin : ((65535 * span : Nat) : ℚ) * 2 ^ (-16 : Int) = (span : ℚ) * (65535 / 65536) := by
    rw [hz]
    push_cast
    ring
  rw [← hfin]
  rcases eq_or_lt_of_le hx0 with h | h
  · rw [← h, roundDouble_zero]
    positivity
  · exact roundDouble_le _ (65535 * span) (-16) h hk hx1

/-- Inside the range the clamp is not taken and `ii` is the integer part of the
scaled position plus 255, an integer part between 0 and `span`. -/
theorem rampII_in_range (rangeMin rangeMax span i : Nat) (h1 : rangeMin ≤ i)
    (h2 : i < rangeMax) (h3 : rangeMax ≤ 65536) (h4 : span ≤ 32000) :
    ¬ (scaledPos rangeMin rangeMax span i > (span : ℚ) + 512) ∧
    rampII rangeMin rangeMax span i = ⌊scaledPos rangeMin rangeMax span i⌋ + 255 ∧
    0 ≤ ⌊scaledPos rangeMin rangeMax span i⌋ ∧
    ⌊scaledPos rangeMin rangeMax span i⌋ ≤ (span : Int) ∧
    (1 ≤ span → ⌊scaledPos rangeMin rangeMax span i⌋ < (span : Int)) := by
  have hb := roundDouble_scaled_bounds (i - rangeMin) (rangeMax - rangeMin) span (by omega)
    (by omega) h4
  rw [← scaledPos_in_range rangeMin rangeMax span i h1 h2 h3] at hb
  unfold rampII truncToInt
  generalize scaledPos rangeMin rangeMax span i = p at hb
  have hs0 : (0 : ℚ) ≤ (span : ℚ) := by positivity
  have hps : p ≤ (span : ℚ) := by linarith [hb.2]
  have hcond : ¬ (p > (span : ℚ) + 512) := by
    intro hgt
    linarith
  have hf0 : 0 ≤ ⌊p⌋ := Int.floor_nonneg.mpr hb.1
  have hf1 : ⌊p⌋ ≤ (span : Int) := by
    have : (⌊p⌋ : ℚ) ≤ ((span : Int) : ℚ) := by
      push_cast
      exact le_trans (Int.floor_le p) hps
    exact_mod_cast this
  have hf2 : 1 ≤ span → ⌊p⌋ < (span : Int) := by
    intro hs
    have hs1 : (1 : ℚ) ≤ (span : ℚ) := by exact_mod_cast hs
    have : (⌊p⌋ : ℚ) < ((span : Int) : ℚ) := by
      push_cast
      have := Int.floor_le p
      linarith [hb.2]
    exact_mod_cast this
  refine ⟨hcond, ?_, hf0, hf1, hf2⟩
  rw [if_neg hcond, if_pos hb.1]
  rw [toShort_of_range ⌊p⌋ (by omega) (by omega),
    toShort_of_range (⌊p⌋ + 255) (by omega) (by omega)]

/-- The `ii` of the code against the position of exact arithmetic: equal when
`(i - rangeMin) * span` is not a multiple of `rangeMax - rangeMin`, and equal or
one less when it is. -/
theorem rampII_near_exact (rangeMin rangeMax span i : Nat) (h1 : rangeMin ≤ i)
    (h2 : i < rangeMax) (h3 : rangeMax ≤ 65536) (h4 : span ≤ 32000) :
    normalisedPos rangeMin rangeMax span i - 1 ≤ rampII rangeMin rangeMax span i ∧
    rampII rangeMin rangeMax span i ≤ normalisedPos rangeMin rangeMax span i ∧
    ((i - rangeMin) * span % (rangeMax - rangeMin) ≠ 0 →
      rampII rangeMin rangeMax span i = normalisedPos rangeMin rangeMax span i) := by
  rw [(rampII_in_range rangeMin rangeMax span i h1 h2 h3 h4).2.1,
    scaledPos_in_range rangeMin rangeMax span i h1 h2 h3]
  unfold normalisedPos
  have ha : i - rangeMin < rangeMax - rangeMin := by omega
  have hb : rangeMax - rangeMin ≤ 65536 := by omega
  generalize i - rangeMin = a at ha
  generalize rangeMax - rangeMin = b at ha hb
  have hbpos : (0 : ℚ) < (b : ℚ) := by exact_mod_cast (by omega : 0 < b)
  have hb2 : (b : ℚ) ≤ 65536 := by exact_mod_cast hb
  have hs0 : (0 : ℚ) ≤ (span : ℚ) := by positivity
  have hs1 : (span : ℚ) ≤ 32000 := by exact_mod_cast h4
  have hq0 : (0 : ℚ) ≤ (a : ℚ) / (b : ℚ) := by positivity
  have hq1 : (a : ℚ) / (b : ℚ) ≤ 1 := by
    rw [div_le_one hbpos]
    exact_mod_cast le_of_lt ha
  have hr := roundDouble_rel _ hq0
  have hx0 : (0 : ℚ) ≤ roundDouble ((a : ℚ) / (b : ℚ)) * (span : ℚ) :=
    mul_nonneg (roundDouble_nonneg _ hq0) hs0
  have hp := roundDouble_rel _ hx0
  generalize roundDouble (roundDouble ((a : ℚ) / (b : ℚ)) * (span : ℚ)) = p at hp
  generalize roundDouble ((a : ℚ) / (b : ℚ)) = r at hr hx0 hp
  -- the exact position `e = a * span / b`, its integer part `n` and remainder `m`
  have hdm : b * (a * span / b) + a * span % b = a * span := Nat.div_add_mod _ _
  have hm : a * span % b < b := Nat.mod_lt _ (by omega)
  generalize a * span / b = n at hdm
  generalize a * span % b = m at hdm hm
  have he : (a : ℚ) / (b : ℚ) * (span : ℚ) = (n : ℚ) + (m : ℚ) / (b : ℚ) := by
    have : ((b * n + m : Nat) : ℚ) = ((a * span : Nat) : ℚ) := by rw [hdm]
    push_cast at this
    field_simp
    linarith
  have hm0 : (0 : ℚ) ≤ (m : ℚ) / (b : ℚ) := by positivity
  have hm1 : (m : ℚ) / (b : ℚ) ≤ 1 - 1 / 65536 := by
    have h1 : (m : ℚ) + 1 ≤ b := by exact_mod_cast hm
    have h2 : (m : ℚ) / (b : ℚ) ≤ 1 - 1 / (b : ℚ) := by
      rw [div_le_iff₀ hbpos]
      field_simp
      linarith
    have h3 : 1 / (65536 : ℚ) ≤ 1 / (b : ℚ) := by
      apply one_div_le_one_div_of_le hbpos hb2
    linarith
  have hE0 : (0 : ℚ) ≤ (a : ℚ) / (b : ℚ) * (span : ℚ) := mul_nonneg hq0 hs0
  have hE1 : (a : ℚ) / (b : ℚ) * (span : ℚ) ≤ 32000 := by
    calc (a : ℚ) / (b : ℚ) * (span : ℚ) ≤ 1 * (span : ℚ) := mul_le_mul_of_nonneg_right hq1 hs0
      _ ≤ 32000 := by linarith
  generalize (a : ℚ) / (b : ℚ) = q at hr he hE0 hE1
  -- `p` is within `32000 * 3 / 2^53` of `q * span`
  have hx1 : r * (span : ℚ) ≤ q * (span : ℚ) * (1 + 1 / 2 ^ 53) := by
    have := mul_le_mul_of_nonneg_right hr.2 hs0
    linarith
  have hx2 : q * (span : ℚ) * (1 - 1 / 2 ^ 53) ≤ r * (span : ℚ) := by
    have := mul_le_mul_of_nonneg_right hr.1 hs0
    linarith
  have hup : p ≤ q * (span : ℚ) * (1 + 1 / 2 ^ 53) * (1 + 1 / 2 ^ 53) :=
    le_trans hp.2 (mul_le_mul_of_nonneg_right hx1 (by norm_num))
  have hlo : q * (span : ℚ) * (1 - 1 / 2 ^ 53) * (1 - 1 / 2 ^ 53) ≤ p :=
    le_trans (mul_le_mul_of_nonneg_right hx2 (by norm_num)) hp.1
  generalize q * (span : ℚ) = e at he hE0 hE1 hup hlo
  have hup2 : p < e + 1 / 131072 := by
    have : e * ((1 + 1 / 2 ^ 53) * (1 + 1 / 2 ^ 53) - 1)
        ≤ 32000 * ((1 + 1 / 2 ^ 53) * (1 + 1 / 2 ^ 53) - 1) :=
      mul_le_mul_of_nonneg_right hE1 (by norm_num)
    have h2 : (32000 : ℚ) * ((1 + 1 / 2 ^ 53) * (1 + 1 / 2 ^ 53) - 1) < 1 / 131072 := by
      norm_num
    linarith
  have hlo2 : e - 1 / 131072 < p := by
    have : e * (1 - (1 - 1 / 2 ^ 53) * (1 - 1 / 2 ^ 53))
        ≤ 32000 * (1 - (1 - 1 / 2 ^ 53) * (1 - 1 / 2 ^ 53)) :=
      mul_le_mul_of_nonneg_right hE1 (by norm_num)
    have h2 : (32000 : ℚ) * (1 - (1 - 1 / 2 ^ 53) * (1 - 1 / 2 ^ 53)) < 1 / 131072 := by
      norm_num
    linarith
  have hfl1 : (n : Int) - 1 ≤ ⌊p⌋ := by
    apply Int.le_floor.mpr
    push_cast
    linarith
  have hfl2 : ⌊p⌋ ≤ (n : Int) := by
    have : ⌊p⌋ < (n : Int) + 1 := by
      apply Int.floor_lt.mpr
      push_cast
      linarith
    omega
  refine ⟨by omega, by omega, ?_⟩
  intro hne
  have hm2 : (1 : ℚ) / 65536 ≤ (m : ℚ) / (b : ℚ) := by
    have h1 : (1 : ℚ) ≤ (m : ℚ) := by exact_mod_cast Nat.one_le_iff_ne_zero.mpr hne
    rw [div_le_div_iff₀ (by norm_num) hbpos]
    nlinarith
  have : (n : Int) ≤ ⌊p⌋ := by
    apply Int.le_floor.mpr
    push_cast
    linarith
  omega

theorem toU8_of_range (v : Int) (h1 : 0 ≤ v) (h2 : v < 256) : toU8 v = v.toNat := by
  unfold toU8
  rw [Int.emod_eq_of_lt h1 h2]

theorem rgbAt_in_range (t : ColorTbl) (rangeMin rangeMax span i : Nat) (h1 : rangeMin ≤ i)
    (h2 : i < rangeMax) (h3 : rangeMax ≤ 65536) :
    ∃ tbl, makeColorTbl t rangeMin rangeMax span = some tbl ∧
      rgbAt tbl i = rampRGB rangeMin rangeMax span i := by
  obtain ⟨tbl, h, _, hrgb⟩ := makeColorTbl_some t rangeMin rangeMax span (by omega) h3
  refine ⟨tbl, h, ?_⟩
  rw [hrgb, if_neg (by omega), if_neg (by omega), if_pos h2]

theorem scaledPos_500_4000_1000_2250 : scaledPos 500 4000 1000 2250 = 500 := by
  rw [scaledPos_in_range 500 4000 1000 2250 (by decide) (by decide) (by decide)]
  have hq : (((2250 - 500 : Nat) : ℚ) / ((4000 - 500 : Nat) : ℚ))
      = ((1 : Nat) : ℚ) * 2 ^ (-1 : Int) := by norm_num [zpow_neg]
  rw [hq, roundDouble_representable 1 (-1) (by norm_num)]
  have hx : ((1 : Nat) : ℚ) * 2 ^ (-1 : Int) * ((1000 : Nat) : ℚ)
      = ((500 : Nat) : ℚ) * 2 ^ (0 : Int) := by norm_num [zpow_neg]
  rw [hx, roundDouble_representable 500 0 (by norm_num)]
  norm_num

theorem rampII_500_4000_1000_2250 : rampII 500 4000 1000 2250 = 755 := by
  rw [(rampII_in_range 500 4000 1000 2250 (by decide) (by decide) (by decide) (by decide)).2.1,
    scaledPos_500_4000_1000_2250]
  have h5 : ⌊(500 : ℚ)⌋ = 500 := Int.floor_intCast (500 : ℤ)
  rw [h5]
  rfl

/-- C3: `makeColorTbl(500, 4000, 1000)` stores inside the table and after it,
whatever the table held before, the entry at index 100 is white, the entry at
index 4500 is black, and the entry at the mid-range index 2250 is
`(10, 255, 0)`: a channel equal to 255 and a channel equal to 0, so neither
white, black nor gray. -/
theorem makeColorTbl_scenario (t : ColorTbl) :
    ∃ tbl, makeColorTbl t 500 4000 1000 = some tbl ∧
      rgbAt tbl 100 = (255, 255, 255) ∧
      rgbAt tbl 4500 = (0, 0, 0) ∧
      rgbAt tbl 2250 = (10, 255, 0) ∧
      (∃ c, tbl c 2250 = 255) ∧
      (∃ c, tbl c 2250 = 0) ∧
      ¬ (tbl 0 2250 = tbl 1 2250 ∧ tbl 1 2250 = tbl 2 2250) := by
  obtain ⟨tbl, h, hcell, hrgb⟩ := makeColorTbl_some t 500 4000 1000 (by decide) (by decide)
  have hmid : rampRGB 500 4000 1000 2250 = (10, 255, 0) := by
    unfold rampRGB
    rw [rampII_500_4000_1000_2250]
    decide
  have h2250 : rgbAt tbl 2250 = (10, 255, 0) := by
    rw [hrgb, hmid, if_neg (by decide), if_neg (by decide), if_pos (by decide)]
  have hc : ∀ c, tbl c 2250 = chan c (10, 255, 0) := by
    intro c
    rw [hcell, hmid, if_neg (by decide), if_neg (by decide), if_pos (by decide)]
  have hr : tbl 0 2250 = 10 := hc 0
  have hg : tbl 1 2250 = 255 := hc 1
  have hb : tbl 2 2250 = 0 := hc 2
  refine ⟨tbl, h, ?_, ?_, h2250, ⟨1, hg⟩, ⟨2, hb⟩, ?_⟩
  · rw [hrgb, if_neg (by decide), if_pos (by decide)]
  · rw [hrgb, if_pos (by decide)]
  · rw [hr, hg, hb]
    decide

/-- The quotient `13 / 45` as the code has it: the nearest `double` is
`5204159569405906 / 2^54`, below `13 / 45`. -/
theorem roundDouble_13_45 :
    roundDouble ((13 : ℚ) / 45) = 5204159569405906 / 18014398509481984 := by
  have h := roundDouble_eval ((13 : ℚ) / 45) (1 / 18014398509481984) (-2) 5204159569405906
    (by norm_num [zpow_neg]) (by norm_num) (by norm_num) (by norm_num) (by norm_num)
  rw [h]
  norm_num

theorem floor_scaledPos_0_45_765_13 : ⌊scaledPos 0 45 765 13⌋ = 220 := by
  rw [scaledPos_in_range 0 45 765 13 (by decide) (by decide) (by decide)]
  have hq : (((13 - 0 : Nat) : ℚ) / ((45 - 0 : Nat) : ℚ)) = (13 : ℚ) / 45 := by norm_num
  rw [hq, roundDouble_13_45]
  have h := roundDouble_eval (5204159569405906 / 18014398509481984 * ((765 : Nat) : ℚ))
    (1 / 35184372088832) 7 7775746231631871
    (by norm_num [zpow_neg]) (by norm_num) (by norm_num) (by norm_num) (by norm_num)
  rw [h, Int.floor_eq_iff]
  constructor <;> norm_num

/-- C24 as stated fails: with `makeColorTbl(0, 45, 765)` the index 13 has the
exact position `13 * 765 / 45 = 221`, hence `ii = 476` in the claim, in
`[255, 511)`, and the claimed entry `(255, 221, 0)`. The code rounds `13 / 45`
down to a `double`, the product with 765 is the `double` just below 221, its
integer part is 220, `ii = 475` and the entry is `(255, 220, 0)`. -/
theorem ramp_double_rounding :
    ((0 ≤ 13 ∧ 13 < 45 ∧ 765 ≤ 32000) ∧ normalisedPos 0 45 765 13 = 476 ∧
      ((255 : Int) ≤ 476 ∧ (476 : Int) < 511)) ∧
    rampII 0 45 765 13 = 475 ∧
    ∃ tbl, makeColorTbl (fun _ _ => 0) 0 45 765 = some tbl ∧
      rgbAt tbl 13 = (255, 220, 0) ∧
      rgbAt tbl 13 ≠ (255, ((476 : Int) - 255).toNat, 0) := by
  have hii : rampII 0 45 765 13 = 475 := by
    rw [(rampII_in_range 0 45 765 13 (by decide) (by decide) (by decide) (by decide)).2.1,
      floor_scaledPos_0_45_765_13]
    rfl
  refine ⟨⟨by decide, by decide, by decide⟩, hii, ?_⟩
  obtain ⟨tbl, h, hrgb⟩ :=
    rgbAt_in_range (fun _ _ => 0) 0 45 765 13 (by decide) (by decide) (by decide)
  have he : rgbAt tbl 13 = (255, 220, 0) := by
    rw [hrgb]
    unfold rampRGB
    simp only [hii]
    decide
  refine ⟨tbl, h, he, ?_⟩
  rw [he]
  decide

/-- C24, amended: for `rangeMin ≤ i < rangeMax ≤ 65536` and `span ≤ 32000`, the
`ii` of the code is the integer part, plus 255, of the scaled position in the
code's `double` arithmetic (the quotient `(i - rangeMin) / (rangeMax - rangeMin)`
and its product with `span` each rounded to a `double`); it is
`floor((i - rangeMin) * span / (rangeMax - rangeMin)) + 255` of exact arithmetic
or one less, and that value itself when `(i - rangeMin) * span` is not a
multiple of `rangeMax - rangeMin`. With this `ii` the call stores inside the
table and the entry at `i` is `(255, ii - 255, 0)` for `255 ≤ ii < 511`,
`(765 - ii, 255, 0)` for `511 ≤ ii < 766` and `(0, 255, ii - 765)` for
`766 ≤ ii < 1021`; the computed channel lies in `0..255` each time, so the
store into a `uint8_t` keeps it. -/
theorem ramp_first_three_bands (t : ColorTbl) (rangeMin rangeMax span i : Nat)
    (h1 : rangeMin ≤ i) (h2 : i < rangeMax) (h3 : rangeMax ≤ 65536) (h4 : span ≤ 32000) :
    (rampII rangeMin rangeMax span i =
        ⌊roundDouble (roundDouble (((i - rangeMin : Nat) : ℚ) / ((rangeMax - rangeMin : Nat) : ℚ))
          * (span : ℚ))⌋ + 255 ∧
      normalisedPos rangeMin rangeMax span i - 1 ≤ rampII rangeMin rangeMax span i ∧
      rampII rangeMin rangeMax span i ≤ normalisedPos rangeMin rangeMax span i ∧
      ((i - rangeMin) * span % (rangeMax - rangeMin) ≠ 0 →
        rampII rangeMin rangeMax span i = normalisedPos rangeMin rangeMax span i)) ∧
    ∃ tbl, makeColorTbl t rangeMin rangeMax span = some tbl ∧
      (255 ≤ rampII rangeMin rangeMax span i → rampII rangeMin rangeMax span i < 511 →
        rgbAt tbl i = (255, (rampII rangeMin rangeMax span i - 255).toNat, 0) ∧
        0 ≤ rampII rangeMin rangeMax span i - 255 ∧
        rampII rangeMin rangeMax span i - 255 ≤ 255) ∧
      (511 ≤ rampII rangeMin rangeMax span i → rampII rangeMin rangeMax span i < 766 →
        rgbAt tbl i = ((765 - rampII rangeMin rangeMax span i).toNat, 255, 0) ∧
        0 ≤ 765 - rampII rangeMin rangeMax span i ∧
        765 - rampII rangeMin rangeMax span i ≤ 255) ∧
      (766 ≤ rampII rangeMin rangeMax span i → rampII rangeMin rangeMax span i < 1021 →
        rgbAt tbl i = (0, 255, (rampII rangeMin rangeMax span i - 765).toNat) ∧
        0 ≤ rampII rangeMin rangeMax span i - 765 ∧
        rampII rangeMin rangeMax span i - 765 ≤ 255) := by
  have hii := (rampII_in_range rangeMin rangeMax span i h1 h2 h3 h4).2.1
  rw [scaledPos_in_range rangeMin rangeMax span i h1 h2 h3] at hii
  have hne := rampII_near_exact rangeMin rangeMax span i h1 h2 h3 h4
  obtain ⟨tbl, htbl, hrgb⟩ := rgbAt_in_range t rangeMin rangeMax span i h1 h2 h3
  have e255 : toU8 255 = 255 := by decide
  have e0 : toU8 0 = 0 := by decide
  refine ⟨⟨hii, hne.1, hne.2.1, hne.2.2⟩, tbl, htbl, ?_, ?_, ?_⟩
  · intro ha hb
    refine ⟨?_, by omega, by omega⟩
    rw [hrgb]
    unfold rampRGB
    simp only []
    rw [if_neg (by omega), if_neg (by omega), if_pos hb, e255, e0,
      toU8_of_range (rampII rangeMin rangeMax span i - 255) (by omega) (by omega)]
  · intro ha hb
    refine ⟨?_, by omega, by omega⟩
    rw [hrgb]
    unfold rampRGB
    simp only []
    rw [if_neg (by omega), if_neg (by omega), if_neg (by omega), if_pos hb, e255, e0,
      toU8_of_range (765 - rampII rangeMin rangeMax span i) (by omega) (by omega)]
  · intro ha hb
    refine ⟨?_, by omega, by omega⟩
    rw [hrgb]
    unfold rampRGB
    simp only []
    rw [if_neg (by omega), if_neg (by omega), if_neg (by omega), if_neg (by omega), if_pos hb,
      e255, e0,
      toU8_of_range (rampII rangeMin rangeMax span i - 765) (by omega) (by omega)]

/-- Witness of C24 amended: index 2250 after `makeColorTbl(500, 4000, 1000)`,
where `ii = 755`: the entry is `(765 - 755, 255, 0)`. -/
theorem ramp_first_three_bands_witness :
    ∃ tbl, makeColorTbl (fun _ _ => 0) 500 4000 1000 = some tbl ∧
      rgbAt tbl 2250 = (10, 255, 0) := by
  obtain ⟨tbl, h, _, hband, _⟩ := (ramp_first_three_bands (fun _ _ => 0) 500 4000 1000 2250
    (by decide) (by decide) (by decide) (by decide)).2
  have he := (hband (by rw [rampII_500_4000_1000_2250]; decide)
    (by rw [rampII_500_4000_1000_2250]; decide)).1
  rw [rampII_500_4000_1000_2250] at he
  exact ⟨tbl, h, he⟩

/-- C25, the code at the failing input: `makeColorTbl(500, 4000, 1000)` stores
inside the table, the in-range indices 3323 < 3324 both have `ii = 1061`, in
`[1021, 1276)`, and their entries are `(0, 0, 255)` and `(0, 255, 255)`: green
is `(1275 - i) mod 256`, taken from the raw index, and rises from 0 to 255. -/
theorem last_band_green_rises :
    (500 ≤ 3323 ∧ 3323 < 3324 ∧ 3324 < 4000) ∧
    rampII 500 4000 1000 3323 = 1061 ∧ rampII 500 4000 1000 3324 = 1061 ∧
    ∃ tbl, makeColorTbl (fun _ _ => 0) 500 4000 1000 = some tbl ∧
      rgbAt tbl 3323 = (0, 0, 255) ∧ rgbAt tbl 3324 = (0, 255, 255) := by
  have ha : rampII 500 4000 1000 3323 = 1061 :=
    (rampII_near_exact 500 4000 1000 3323 (by decide) (by decide) (by decide)
      (by decide)).2.2 (by decide)
  have hb : rampII 500 4000 1000 3324 = 1061 :=
    (rampII_near_exact 500 4000 1000 3324 (by decide) (by decide) (by decide)
      (by decide)).2.2 (by decide)
  refine ⟨by decide, ha, hb, ?_⟩
  obtain ⟨tbl, h, _, hrgb⟩ :=
    makeColorTbl_some (fun _ _ => 0) 500 4000 1000 (by decide) (by decide)
  refine ⟨tbl, h, ?_, ?_⟩
  · rw [hrgb, if_neg (by decide), if_neg (by decide), if_pos (by decide)]
    unfold rampRGB
    simp only [ha]
    decide
  · rw [hrgb, if_neg (by decide), if_neg (by decide), if_pos (by decide)]
    unfold rampRGB
    simp only [hb]
    decide

theorem rampII_at_min (rangeMin rangeMax span : Nat) (h2 : rangeMin < rangeMax)
    (h3 : rangeMax ≤ 65536) (h4 : span ≤ 32000) :
    rampII rangeMin rangeMax span rangeMin = 255 := by
  rw [(rampII_in_range rangeMin rangeMax span rangeMin (le_refl _) h2 h3 h4).2.1,
    scaledPos_in_range rangeMin rangeMax span rangeMin (le_refl _) h2 h3]
  simp [roundDouble_zero]

/-- C30, amended: for `rangeMin ≤ i < rangeMax ≤ 65536` and `span ≤ 32000` the
clamp branch is not taken and `255 ≤ ii ≤ span + 255`, with `ii < span + 255`
when `span ≥ 1`; so the white branches (`ii < 0`, `ii < 255`) are not taken,
`ii = 255` at `i = rangeMin`, whose entry is pure red `(255, 0, 0)` (the call
stores inside the table), and for `span ≤ 1020` the black branch (`ii ≥ 1276`)
is not taken either. -/
theorem ramp_in_range_position (t : ColorTbl) (rangeMin rangeMax span i : Nat)
    (h1 : rangeMin ≤ i) (h2 : i < rangeMax) (h3 : rangeMax ≤ 65536) (h4 : span ≤ 32000) :
    ¬ (scaledPos rangeMin rangeMax span i > (span : ℚ) + 512) ∧
    255 ≤ rampII rangeMin rangeMax span i ∧
    rampII rangeMin rangeMax span i ≤ (span : Int) + 255 ∧
    (1 ≤ span → rampII rangeMin rangeMax span i < (span : Int) + 255) ∧
    ¬ (rampII rangeMin rangeMax span i < 0) ∧ ¬ (rampII rangeMin rangeMax span i < 255) ∧
    rampII rangeMin rangeMax span rangeMin = 255 ∧
    (∃ tbl, makeColorTbl t rangeMin rangeMax span = some tbl ∧
      rgbAt tbl rangeMin = (255, 0, 0)) ∧
    (span ≤ 1020 → rampII rangeMin rangeMax span i < 1276) := by
  have hr := rampII_in_range rangeMin rangeMax span i h1 h2 h3 h4
  have hmin := rampII_at_min rangeMin rangeMax span (by omega) h3 h4
  obtain ⟨tbl, htbl, hrgb⟩ :=
    rgbAt_in_range t rangeMin rangeMax span rangeMin (le_refl _) (by omega) h3
  have hred : rgbAt tbl rangeMin = (255, 0, 0) := by
    rw [hrgb]
    unfold rampRGB
    simp only [hmin]
    rw [if_neg (by decide), if_neg (by decide), if_pos (by decide)]
    rfl
  rw [hr.2.1]
  refine ⟨hr.1, by omega, by omega, ?_, by omega, by omega, hmin, ⟨tbl, htbl, hred⟩, by omega⟩
  intro hs
  have := hr.2.2.2.2 hs
  omega

/-- Witness of C30 amended: `makeColorTbl(500, 4000, 1000)` at index 2250. -/
theorem ramp_in_range_position_witness :
    rampII 500 4000 1000 2250 < 1000 + 255 ∧
    ∃ tbl, makeColorTbl (fun _ _ => 0) 500 4000 1000 = some tbl ∧
      rgbAt tbl 500 = (255, 0, 0) :=
  ⟨(ramp_in_range_position (fun _ _ => 0) 500 4000 1000 2250 (by decide) (by decide) (by decide)
      (by decide)).2.2.2.1 (by decide),
   (ramp_in_range_position (fun _ _ => 0) 500 4000 1000 2250 (by decide) (by decide) (by decide)
      (by decide)).2.2.2.2.2.2.2.1⟩

/-- C30 as stated fails. For `span = 0`: with `makeColorTbl(0, 10, 0)` the
in-range index 0 has `ii = 255`, which is not below `span + 255 = 255`. For
`rangeMax > 65536`: `makeColorTbl(0, 65537, 1000)` stores outside the table (its
first loop runs up to index 65536), so the entry at `rangeMin = 0` has no
defined value after it. -/
theorem ramp_span_zero :
    ((0 < 10 ∧ 0 ≤ 32000 ∧ 0 ≤ 0 ∧ 0 < 10) ∧ rampII 0 10 0 0 = 255 ∧
      ¬ (rampII 0 10 0 0 < 0 + 255)) ∧
    ((0 < 65537 ∧ 1000 ≤ 32000) ∧ makeColorTbl (fun _ _ => 0) 0 65537 1000 = none) := by
  have h : rampII 0 10 0 0 = 255 := rampII_at_min 0 10 0 (by decide) (by decide) (by decide)
  refine ⟨⟨by decide, h, ?_⟩, by decide, makeColorTbl_none _ _ _ _ (Or.inl (by decide))⟩
  rw [h]
  decide

/-! ## Quaternions -/

theorem qNormSq_qMul {α : Type} [CommRing α] (p q : Fin 4 → α) :
    qNormSq (qMul p q) = qNormSq p * qNormSq q := by
  simp [qNormSq, qMul]
  ring

theorem qRot_cols (q : Fin 4 → ℝ) (h : qNormSq q = 1) (i j : Fin 3) :
    dot3 (col3 (qRot q) i) (col3 (qRot q) j) = if i = j then 1 else 0 := by
  unfold qNormSq at h
  fin_cases i <;> fin_cases j <;> simp [dot3, col3, qRot]
  · linear_combination (4 * (q 2 * q 2 + q 3 * q 3)) * h
  · linear_combination (-4 * (q 1 * q 2)) * h
  · linear_combination (-4 * (q 3 * q 1)) * h
  · linear_combination (-4 * (q 1 * q 2)) * h
  · linear_combination (4 * (q 3 * q 3 + q 1 * q 1)) * h
  · linear_combination (-4 * (q 2 * q 3)) * h
  · linear_combination (-4 * (q 3 * q 1)) * h
  · linear_combination (-4 * (q 2 * q 3)) * h
  · linear_combination (4 * (q 1 * q 1 + q 2 * q 2)) * h

theorem qRot_rows (q : Fin 4 → ℝ) (h : qNormSq q = 1) (i j : Fin 3) :
    dot3 (row3 (qRot q) i) (row3 (qRot q) j) = if i = j then 1 else 0 := by
  unfold qNormSq at h
  fin_cases i <;> fin_cases j <;> simp [dot3, row3, qRot]
  · linear_combination (4 * (q 2 * q 2 + q 3 * q 3)) * h
  · linear_combination (-4 * (q 1 * q 2)) * h
  · linear_combination (-4 * (q 3 * q 1)) * h
  · linear_combination (-4 * (q 1 * q 2)) * h
  · linear_combination (4 * (q 3 * q 3 + q 1 * q 1)) * h
  · linear_combination (-4 * (q 2 * q 3)) * h
  · linear_combination (-4 * (q 3 * q 1)) * h
  · linear_combination (-4 * (q 2 * q 3)) * h
  · linear_combination (4 * (q 1 * q 1 + q 2 * q 2)) * h

theorem qRot_identity {α : Type} [Ring α] : qRot (![1, 0, 0, 0] : Fin 4 → α) = identity16 := by
  funext i
  fin_cases i <;> simp [qRot, identity16]

/-- C4: for every unit quaternion `q` (exact real arithmetic) the matrix
`qRot` writes is orthonormal: the columns and the rows of its upper-left 3x3
block have unit length and are pairwise orthogonal, and its fourth row and
fourth column are `(0, 0, 0, 1)`. -/
theorem qRot_orthonormal (q : Fin 4 → ℝ) (h : qNormSq q = 1) : Orthonormal16 (qRot q) := by
  refine ⟨qRot_cols q h, qRot_rows q h, ?_, ?_⟩
  · intro c
    fin_cases c <;> simp [matEntry, qRot]
  · intro c
    fin_cases c <;> simp [matEntry, qRot]

/-- Witness of C4: the unit quaternion `(0, 1, 0, 0)`, a half turn. -/
theorem qRot_orthonormal_witness :
    qNormSq (![0, 1, 0, 0] : Fin 4 → ℝ) = 1 ∧ Orthonormal16 (qRot (![0, 1, 0, 0] : Fin 4 → ℝ)) :=
  ⟨by simp [qNormSq], qRot_orthonormal ![0, 1, 0, 0] (by simp [qNormSq])⟩

/-! ## Rotation drag -/

theorem readModifiers_noModifier {α : Type} (k_state : Nat) (s : Globals α)
    (hk : noModifier k_state) :
    readModifiers k_state s = { s with g_k_shift := 0, g_k_ctrl := 0, g_k_alt := 0 } := by
  obtain ⟨h1, h2, h3⟩ := hk
  simp [readModifiers, h1, h2, h3]

/-- The no-modifier branch of `cbMotion`. -/
theorem cbMotion_noModifier {α : Type} [LinearOrderedField α] (E : CEnv α) (k_state : Nat)
    (x y : Int) (s : Globals α) (hk : noModifier k_state) :
    cbMotion E k_state x y s =
      if E.sqrt (motionDx s x * motionDx s x + motionDy s y * motionDy s y) ≠ 0 then
        { s with
          g_k_shift := 0, g_k_ctrl := 0, g_k_alt := 0
          g_tq := qMul (dragQuat E (motionDx s x) (motionDy s y)
            (E.sqrt (motionDx s x * motionDx s x + motionDy s y * motionDy s y))) s.g_cq
          g_rt := qRot (qMul (dragQuat E (motionDx s x) (motionDy s y)
            (E.sqrt (motionDx s x * motionDx s x + motionDy s y * motionDy s y))) s.g_cq) }
      else { s with g_k_shift := 0, g_k_ctrl := 0, g_k_alt := 0 } := by
  unfold cbMotion
  rw [readModifiers_noModifier k_state s hk]
  simp [motionDx, motionDy]

theorem qNormSq_dragQuat (E : CEnv ℝ) (hsqrt : E.sqrt = Real.sqrt) (hsin : E.sin = Real.sin)
    (hcos : E.cos = Real.cos) (dx dy : ℝ) (ha : E.sqrt (dx * dx + dy * dy) ≠ 0) :
    qNormSq (dragQuat E dx dy (E.sqrt (dx * dx + dy * dy))) = 1 := by
  rw [hsqrt] at ha ⊢
  have hnn : 0 ≤ dx * dx + dy * dy := add_nonneg (mul_self_nonneg _) (mul_self_nonneg _)
  have hsq : Real.sqrt (dx * dx + dy * dy) * Real.sqrt (dx * dx + dy * dy) = dx * dx + dy * dy :=
    Real.mul_self_sqrt hnn
  generalize Real.sqrt (dx * dx + dy * dy) = a at ha hsq
  simp only [qNormSq, dragQuat, hsin, hcos]
  simp
  generalize a * SCALE * 0.0625 = ar
  have hsc := Real.sin_sq_add_cos_sq ar
  field_simp
  nlinarith [hsc, hsq]

/-- C5: composition keeps the quaternion unit-norm. With the real `sqrt`,
`sin`, `cos`, for a motion event without modifier whose displacement from the
drag origin has length `a ≠ 0`, if `g_cq` has unit norm then `cbMotion` leaves
`g_tq = qMul(dq, g_cq)` with `dq = (cos ar, dy sin(ar)/a, dx sin(ar)/a, 0)`, and
this `g_tq` has unit norm. -/
theorem cbMotion_keeps_unit_norm (E : CEnv ℝ) (hsqrt : E.sqrt = Real.sqrt)
    (hsin : E.sin = Real.sin) (hcos : E.cos = Real.cos) (s : Globals ℝ) (k_state : Nat)
    (x y : Int) (hk : noModifier k_state)
    (ha : E.sqrt (motionDx s x * motionDx s x + motionDy s y * motionDy s y) ≠ 0)
    (hq : qNormSq s.g_cq = 1) :
    (cbMotion E k_state x y s).g_tq =
      qMul (dragQuat E (motionDx s x) (motionDy s y)
        (E.sqrt (motionDx s x * motionDx s x + motionDy s y * motionDy s y))) s.g_cq ∧
    qNormSq (cbMotion E k_state x y s).g_tq = 1 := by
  rw [cbMotion_noModifier E k_state x y s hk, if_pos ha]
  refine ⟨rfl, ?_⟩
  show qNormSq (qMul _ s.g_cq) = 1
  rw [qNormSq_qMul, hq, qNormSq_dragQuat E hsqrt hsin hcos _ _ ha, one_mul]

/-- Witness of C5: from the state `mainPtCloudView` sets up, after the window
got its size 640x480, a plain motion event at pixel (640, 0). -/
theorem cbMotion_keeps_unit_norm_witness :
    noModifier 0 ∧
    qNormSq (cbMotion ⟨Real.sqrt, Real.sin, Real.cos, id⟩ 0 640 0
      (cbReshape 640 480
        (mainPtCloudView ⟨Real.sqrt, Real.sin, Real.cos, id⟩ 30 9000 1 initGlobals))).g_tq = 1 := by
  have hx : motionDx (cbReshape 640 480
      (mainPtCloudView (⟨Real.sqrt, Real.sin, Real.cos, id⟩ : CEnv ℝ) 30 9000 1 initGlobals)) 640
        = 1 := by
    simp [motionDx, cbReshape, mainPtCloudView, resetRotate, initGlobals, wrap32]
  have hy : motionDy (cbReshape 640 480
      (mainPtCloudView (⟨Real.sqrt, Real.sin, Real.cos, id⟩ : CEnv ℝ) 30 9000 1 initGlobals)) 0
        = 0 := by
    simp [motionDy, cbReshape, mainPtCloudView, resetRotate, initGlobals, wrap32]
  exact ⟨by decide,
    (cbMotion_keeps_unit_norm ⟨Real.sqrt, Real.sin, Real.cos, id⟩ rfl rfl rfl _ 0 640 0
      (by decide) (by rw [hx, hy]; simp)
      (by simp [qNormSq, cbReshape, mainPtCloudView, resetRotate])).2⟩

/-! ## Ingest (`update3dData`) -/

theorem forCount_update {β : Type} (v : Nat → β) (n : Nat) :
    ∀ (lo : Nat) (f : Nat → β) (j : Nat),
      forCount (fun i f => Function.update f i (v i)) lo n f j
        = if lo ≤ j ∧ j < lo + n then v j else f j := by
  induction n with
  | zero =>
    intro lo f j
    have h0 : ¬ (lo ≤ j ∧ j < lo + 0) := by omega
    rw [forCount, if_neg h0]
  | succ n ih =>
    intro lo f j
    rw [forCount, ih]
    by_cases h1 : lo + 1 ≤ j ∧ j < lo + 1 + n
    · have h2 : lo ≤ j ∧ j < lo + (n + 1) := by omega
      rw [if_pos h1, if_pos h2]
    · by_cases h3 : j = lo
      · subst h3
        have h2 : j ≤ j ∧ j < j + (n + 1) := by omega
        rw [if_neg h1, if_pos h2, Function.update_same]
      · have h2 : ¬ (lo ≤ j ∧ j < lo + (n + 1)) := by omega
        rw [if_neg h1, if_neg h2, Function.update_noteq h3]

/-- Closed form of the point array `update3dData` leaves when it runs. -/
theorem update3dData_pt {α : Type} [LinearOrderedField α] (ts_ns : α) (ply_dat : Nat → Int)
    (ply_cnt : Int) (s : Globals α) (hi : s.g_glut_inited = true) (hr : s.g_glut_running = true)
    (j : Nat) :
    (update3dData ts_ns ply_dat ply_cnt s).g_ply.pt j =
      if (j : Int) < ply_cnt then storedPoint s.g_depth_min ply_dat j else s.g_ply.pt j := by
  unfold update3dData
  simp only [hi, hr, Bool.true_eq_false, if_false]
  show forLoop 0 ply_cnt.toNat (storePoint s.g_depth_min ply_dat) s.g_ply.pt j = _
  unfold forLoop storePoint
  rw [forCount_update (fun i => storedPoint s.g_depth_min ply_dat i)]
  by_cases h : (j : Int) < ply_cnt
  · have h2 : 0 ≤ j ∧ j < 0 + (ply_cnt.toNat - 0) := by omega
    rw [if_pos h, if_pos h2]
  · have h2 : ¬ (0 ≤ j ∧ j < 0 + (ply_cnt.toNat - 0)) := by omega
    rw [if_neg h, if_neg h2]

theorem update3dData_frame {α : Type} [LinearOrderedField α] (ts_ns : α) (ply_dat : Nat → Int)
    (ply_cnt : Int) (s : Globals α) (hi : s.g_glut_inited = true) (hr : s.g_glut_running = true) :
    (update3dData ts_ns ply_dat ply_cnt s).g_disp_depth = s.g_disp_depth ∧
    (update3dData ts_ns ply_dat ply_cnt s).g_depth_min = s.g_depth_min := by
  unfold update3dData
  simp only [hi, hr, Bool.true_eq_false, if_false]
  trivial

theorem update3dData_cnt {α : Type} [LinearOrderedField α] (ts_ns : α) (ply_dat : Nat → Int)
    (ply_cnt : Int) (s : Globals α) (hi : s.g_glut_inited = true) (hr : s.g_glut_running = true) :
    (update3dData ts_ns ply_dat ply_cnt s).g_ply.cnt = ply_cnt := by
  unfold update3dData
  simp only [hi, hr, Bool.true_eq_false, if_false]

/-- C6 as stated fails: called with `count = MAX_PLY_SIZE + 1 = 614401` in the
state `mainPtCloudView` sets up, `update3dData` leaves `g_ply.cnt = 614401`,
above the capacity, and writes the slot of index `614400 = MAX_PLY_SIZE` (its
`x` goes from 0 to 1). -/
theorem update3dData_overflows :
    (MAX_PLY_SIZE : Int) < (update3dData (0 : ℝ) (fun _ => 1) 614401
      (mainPtCloudView ⟨Real.sqrt, Real.sin, Real.cos, id⟩ 30 9000 1 initGlobals)).g_ply.cnt ∧
    MAX_PLY_SIZE ≤ 614400 ∧
    ((mainPtCloudView (⟨Real.sqrt, Real.sin, Real.cos, id⟩ : CEnv ℝ) 30 9000 1 initGlobals).g_ply.pt
      614400).x = 0 ∧
    ((update3dData (0 : ℝ) (fun _ => 1) 614401
      (mainPtCloudView ⟨Real.sqrt, Real.sin, Real.cos, id⟩ 30 9000 1 initGlobals)).g_ply.pt
        614400).x = 1 := by
  have hi : (mainPtCloudView (⟨Real.sqrt, Real.sin, Real.cos, id⟩ : CEnv ℝ) 30 9000 1
      initGlobals).g_glut_inited = true := rfl
  have hr : (mainPtCloudView (⟨Real.sqrt, Real.sin, Real.cos, id⟩ : CEnv ℝ) 30 9000 1
      initGlobals).g_glut_running = true := rfl
  refine ⟨?_, by decide, rfl, ?_⟩
  · rw [update3dData_cnt _ _ _ _ hi hr]
    decide
  · rw [update3dData_pt _ _ _ _ hi hr, if_pos (by decide)]
    simp [storedPoint]

/-- C6, amended: for every call `update3dData(ts, data, count)` made while the
viewer is initialized and running with `count ≤ MAX_PLY_SIZE`, the stored
count `g_ply.cnt` afterwards equals `count`, so is at most `MAX_PLY_SIZE`, and
no point slot of index `≥ MAX_PLY_SIZE` is written. -/
theorem update3dData_within_capacity {α : Type} [LinearOrderedField α] (ts_ns : α)
    (ply_dat : Nat → Int) (ply_cnt : Int) (s : Globals α) (hi : s.g_glut_inited = true)
    (hr : s.g_glut_running = true) (hc : ply_cnt ≤ (MAX_PLY_SIZE : Int)) :
    (update3dData ts_ns ply_dat ply_cnt s).g_ply.cnt = ply_cnt ∧
    (update3dData ts_ns ply_dat ply_cnt s).g_ply.cnt ≤ (MAX_PLY_SIZE : Int) ∧
    ∀ j : Nat, MAX_PLY_SIZE ≤ j →
      (update3dData ts_ns ply_dat ply_cnt s).g_ply.pt j = s.g_ply.pt j := by
  refine ⟨update3dData_cnt ts_ns ply_dat ply_cnt s hi hr, ?_, ?_⟩
  · rw [update3dData_cnt ts_ns ply_dat ply_cnt s hi hr]
    exact hc
  · intro j hj
    rw [update3dData_pt ts_ns ply_dat ply_cnt s hi hr]
    have h : ¬ ((j : Int) < ply_cnt) := by
      have : (MAX_PLY_SIZE : Int) ≤ (j : Int) := by exact_mod_cast hj
      omega
    rw [if_neg h]

/-- Witness of C6 amended: a frame of 307200 = 640 * 480 points, in the state
`mainPtCloudView` sets up. -/
theorem update3dData_within_capacity_witness :
    (update3dData (0 : ℝ) (fun _ => 1) 307200
      (mainPtCloudView ⟨Real.sqrt, Real.sin, Real.cos, id⟩ 30 9000 1 initGlobals)).g_ply.cnt
        = 307200 ∧
    (update3dData (0 : ℝ) (fun _ => 1) 307200
      (mainPtCloudView ⟨Real.sqrt, Real.sin, Real.cos, id⟩ 30 9000 1 initGlobals)).g_ply.cnt
        ≤ (MAX_PLY_SIZE : Int) ∧
    ∀ j : Nat, MAX_PLY_SIZE ≤ j →
      (update3dData (0 : ℝ) (fun _ => 1) 307200
        (mainPtCloudView ⟨Real.sqrt, Real.sin, Real.cos, id⟩ 30 9000 1 initGlobals)).g_ply.pt j
        = (mainPtCloudView (⟨Real.sqrt, Real.sin, Real.cos, id⟩ : CEnv ℝ) 30 9000 1
            initGlobals).g_ply.pt j :=
  update3dData_within_capacity (0 : ℝ) (fun _ => 1) 307200
    (mainPtCloudView ⟨Real.sqrt, Real.sin, Real.cos, id⟩ 30 9000 1 initGlobals) rfl rfl (by decide)

/-! ## Colour-table index of the drawn points -/

/-- The table indices `dispDepthPoints` uses for a frame of `n` points that
`update3dData` has just stored. -/
theorem dispDepthPoints_after_update {α : Type} [LinearOrderedField α] [FloorRing α] (ts_ns : α)
    (ply_dat : Nat → Int) (n : Nat) (s : Globals α) (hi : s.g_glut_inited = true)
    (hr : s.g_glut_running = true) (hdd : s.g_disp_depth = true) :
    (dispDepthPoints (update3dData ts_ns ply_dat (n : Int) s)).map (fun d => d.idx) =
      (List.range n).map (fun i =>
        wrap32 (truncToInt (storedPoint (α := α) s.g_depth_min ply_dat i).z + s.g_depth_min)) := by
  unfold dispDepthPoints
  rw [(update3dData_frame ts_ns ply_dat n s hi hr).1, hdd, update3dData_cnt ts_ns ply_dat n s hi hr]
  simp only [Bool.true_eq_false, if_false, Int.toNat_ofNat, List.map_map]
  apply List.map_congr_left
  intro i hmem
  have hlt : i < n := List.mem_range.mp hmem
  have hlt2 : (i : Int) < (n : Int) := by exact_mod_cast hlt
  simp only [Function.comp, drawPoint]
  rw [update3dData_pt ts_ns ply_dat n s hi hr, if_pos hlt2,
    (update3dData_frame ts_ns ply_dat n s hi hr).2]

theorem truncToInt_natCast {α : Type} [LinearOrderedField α] [FloorRing α] (n : Nat) :
    truncToInt ((n : Int) : α) = n := by
  unfold truncToInt
  rw [if_pos (by exact_mod_cast Int.natCast_nonneg n), Int.floor_intCast]

/-- C7, the code at the failing input: in the state `mainPtCloudView` sets up,
after the window got its size, one press of F7 (`g_depth_min = 50`) and the
ingest of one point of raw depth 0 (stored as the sentinel 65535),
`dispDepthPoints` reads the colour table at index 65585, past its last index
65535. -/
theorem dispDepthPoints_sentinel_index :
    (dispDepthPoints (run (⟨Real.sqrt, Real.sin, Real.cos, id⟩ : CEnv ℝ)
      (mainPtCloudView ⟨Real.sqrt, Real.sin, Real.cos, id⟩ 30 9000 1 initGlobals)
      [Event.reshape 640 480, Event.specialKey GLUT_KEY_F7 0 0,
       Event.update3d 0 (fun _ => 0) 1])).map (fun d => d.idx) = [65585] ∧
    ¬ ((65585 : Int) ≤ 65535) := by
  refine ⟨?_, by decide⟩
  simp only [run, List.foldl, step]
  generalize hs1 : cbSpecialKey (⟨Real.sqrt, Real.sin, Real.cos, id⟩ : CEnv ℝ) GLUT_KEY_F7 0 0
      (cbReshape 640 480 (mainPtCloudView ⟨Real.sqrt, Real.sin, Real.cos, id⟩ 30 9000 1 initGlobals))
      = s1
  have hi : s1.g_glut_inited = true := by rw [← hs1]; rfl
  have hr : s1.g_glut_running = true := by rw [← hs1]; rfl
  have hdd : s1.g_disp_depth = true := by rw [← hs1]; rfl
  have hdm : s1.g_depth_min = 50 := by rw [← hs1]; rfl
  have h := dispDepthPoints_after_update (0 : ℝ) (fun _ => 0) 1 s1 hi hr hdd
  rw [show ((1 : Nat) : Int) = 1 from rfl] at h
  rw [h, hdm]
  have hz : (storedPoint (α := ℝ) 50 (fun _ => 0) 0).z = ((65535 : Nat) : Int) := by
    simp [storedPoint]
  rw [show List.range 1 = [0] from rfl]
  simp only [List.map_cons, List.map_nil]
  rw [hz, truncToInt_natCast]
  rfl

/-! ## Rotation drag without displacement -/

theorem cbMouse_left_down {α : Type} [LinearOrderedField α] (E : CEnv α) (k_state : Nat)
    (x y : Int) (s : Globals α) (hk : noModifier k_state) :
    cbMouse E k_state GLUT_LEFT_BUTTON GLUT_DOWN x y s =
      { s with g_k_shift := 0, g_k_ctrl := 0, g_k_alt := 0, g_cx := x, g_cy := y, g_cx_s := x,
               g_cy_s := y, g_cx_a := x, g_cy_a := y, glut_idle := true } := by
  unfold cbMouse
  rw [readModifiers_noModifier k_state s hk]
  simp

theorem cbMouse_left_up {α : Type} [LinearOrderedField α] (E : CEnv α) (k_state : Nat)
    (x y : Int) (s : Globals α) (hk : noModifier k_state) :
    cbMouse E k_state GLUT_LEFT_BUTTON GLUT_UP x y s =
      { s with g_k_shift := 0, g_k_ctrl := 0, g_k_alt := 0, glut_idle := false,
               g_cq := ![s.g_tq 0, s.g_tq 1, s.g_tq 2, s.g_tq 3] } := by
  unfold cbMouse
  rw [readModifiers_noModifier k_state s hk]
  simp [GLUT_LEFT_BUTTON, GLUT_UP, GLUT_DOWN]

/-- A plain press, motion and release at one pixel: the motion event changes
neither `g_tq` nor `g_rt`, and the release copies `g_tq`, whatever it holds,
into `g_cq`. -/
theorem zero_drag_commits_g_tq {α : Type} [LinearOrderedField α] (E : CEnv α)
    (hsqrt : E.sqrt 0 = 0) (s : Globals α) (k1 k2 k3 : Nat) (hk1 : noModifier k1)
    (hk2 : noModifier k2) (hk3 : noModifier k3) (x y : Int) :
    (run E s [Event.mouse k1 GLUT_LEFT_BUTTON GLUT_DOWN x y, Event.motion k2 x y,
      Event.mouse k3 GLUT_LEFT_BUTTON GLUT_UP x y]).g_cq
        = ![s.g_tq 0, s.g_tq 1, s.g_tq 2, s.g_tq 3] ∧
    (run E s [Event.mouse k1 GLUT_LEFT_BUTTON GLUT_DOWN x y, Event.motion k2 x y,
      Event.mouse k3 GLUT_LEFT_BUTTON GLUT_UP x y]).g_rt = s.g_rt := by
  simp only [run, List.foldl, step]
  have hz : wrap32 0 = 0 := by decide
  have hx : motionDx (cbMouse E k1 GLUT_LEFT_BUTTON GLUT_DOWN x y s) x = 0 := by
    rw [cbMouse_left_down E k1 x y s hk1]
    simp [motionDx, hz]
  have hy : motionDy (cbMouse E k1 GLUT_LEFT_BUTTON GLUT_DOWN x y s) y = 0 := by
    rw [cbMouse_left_down E k1 x y s hk1]
    simp [motionDy, hz]
  have ha : ¬ (E.sqrt (motionDx (cbMouse E k1 GLUT_LEFT_BUTTON GLUT_DOWN x y s) x
      * motionDx (cbMouse E k1 GLUT_LEFT_BUTTON GLUT_DOWN x y s) x
      + motionDy (cbMouse E k1 GLUT_LEFT_BUTTON GLUT_DOWN x y s) y
      * motionDy (cbMouse E k1 GLUT_LEFT_BUTTON GLUT_DOWN x y s) y) ≠ 0) := by
    rw [hx, hy]
    simp [hsqrt]
  rw [cbMotion_noModifier E k2 x y _ hk2, if_neg ha, cbMouse_left_up E k3 x y _ hk3,
    cbMouse_left_down E k1 x y s hk1]
  exact ⟨rfl, rfl⟩

/-- C8, the code at the failing input: in the state `mainPtCloudView` sets up,
after the window got its size, `g_cq` is `(1, 0, 0, 0)`; a plain press of the
primary button at (100, 100), a motion event at (100, 100) and the release
leave `g_cq = (0, 0, 0, 0)`, the never-assigned `g_tq`, of norm 0; `g_rt` is
unchanged. (`g_tq[0]` is 0 when `resetRotate` clears its first bytes, so it
stays 0.) -/
theorem zero_drag_changes_g_cq :
    (run (⟨Real.sqrt, Real.sin, Real.cos, id⟩ : CEnv ℝ)
      (mainPtCloudView ⟨Real.sqrt, Real.sin, Real.cos, id⟩ 30 9000 1 initGlobals)
      [Event.reshape 640 480]).g_cq = ![1, 0, 0, 0] ∧
    (run (⟨Real.sqrt, Real.sin, Real.cos, id⟩ : CEnv ℝ)
      (run (⟨Real.sqrt, Real.sin, Real.cos, id⟩ : CEnv ℝ)
        (mainPtCloudView ⟨Real.sqrt, Real.sin, Real.cos, id⟩ 30 9000 1 initGlobals)
        [Event.reshape 640 480])
      [Event.mouse 0 GLUT_LEFT_BUTTON GLUT_DOWN 100 100,
       Event.motion 0 100 100, Event.mouse 0 GLUT_LEFT_BUTTON GLUT_UP 100 100]).g_cq
      = ![0, 0, 0, 0] ∧
    (run (⟨Real.sqrt, Real.sin, Real.cos, id⟩ : CEnv ℝ)
      (run (⟨Real.sqrt, Real.sin, Real.cos, id⟩ : CEnv ℝ)
        (mainPtCloudView ⟨Real.sqrt, Real.sin, Real.cos, id⟩ 30 9000 1 initGlobals)
        [Event.reshape 640 480])
      [Event.mouse 0 GLUT_LEFT_BUTTON GLUT_DOWN 100 100,
       Event.motion 0 100 100, Event.mouse 0 GLUT_LEFT_BUTTON GLUT_UP 100 100]).g_rt
      = (run (⟨Real.sqrt, Real.sin, Real.cos, id⟩ : CEnv ℝ)
          (mainPtCloudView ⟨Real.sqrt, Real.sin, Real.cos, id⟩ 30 9000 1 initGlobals)
          [Event.reshape 640 480]).g_rt ∧
    (![1, 0, 0, 0] : Fin 4 → ℝ) ≠ ![0, 0, 0, 0] := by
  refine ⟨rfl, ?_, ?_, ?_⟩
  · rw [(zero_drag_commits_g_tq (⟨Real.sqrt, Real.sin, Real.cos, id⟩ : CEnv ℝ) Real.sqrt_zero _
      0 0 0 (by decide) (by decide) (by decide) 100 100).1]
    funext i
    fin_cases i <;> simp [run, step, cbReshape, mainPtCloudView, resetRotate, initGlobals]
  · exact (zero_drag_commits_g_tq (⟨Real.sqrt, Real.sin, Real.cos, id⟩ : CEnv ℝ) Real.sqrt_zero _
      0 0 0 (by decide) (by decide) (by decide) 100 100).2
  · intro h
    have h0 := congrFun h 0
    simp at h0

/-! ## Reset -/

/-- C9: after `resetRotate()`, whatever the state before: eye
`(1.5, 0.5, -6.0)`, target `(0, 0, 0)`, zoom `g_wheel = 60 = SCALE_DEFAULT / 10`,
the value `g_wheel` is initialised with, pan offsets `(0, 0, 0)`,
`g_depth_min = 0`, `g_cq = (1, 0, 0, 0)` and `g_rt` the 4x4 identity. -/
theorem resetRotate_defaults {α : Type} [LinearOrderedField α] (E : CEnv α) (s : Globals α) :
    (resetRotate E s).g_eye_x = 1.5 ∧ (resetRotate E s).g_eye_y = 0.5 ∧
    (resetRotate E s).g_eye_z = -6 ∧
    (resetRotate E s).g_tgt_x = 0 ∧ (resetRotate E s).g_tgt_y = 0 ∧ (resetRotate E s).g_tgt_z = 0 ∧
    (resetRotate E s).g_wheel = 60 ∧ (resetRotate E s).g_wheel = SCALE_DEFAULT / 10 ∧
    (resetRotate E s).g_wheel = (initGlobals : Globals α).g_wheel ∧
    (resetRotate E s).g_offset_x = 0 ∧ (resetRotate E s).g_offset_y = 0 ∧
    (resetRotate E s).g_offset_z = 0 ∧
    (resetRotate E s).g_depth_min = 0 ∧
    (resetRotate E s).g_cq = ![1, 0, 0, 0] ∧
    (resetRotate E s).g_rt = identity16 := by
  refine ⟨rfl, rfl, rfl, rfl, rfl, rfl, rfl, rfl, rfl, rfl, rfl, rfl, rfl, rfl, ?_⟩
  show qRot ![1, 0, 0, 0] = identity16
  exact qRot_identity

/-! ## The zoom factor stays at or above 15 -/

theorem ite_ind {β : Type} (P : β → Prop) (c : Prop) [Decidable c] (a b : β) (ha : P a)
    (hb : P b) : P (if c then a else b) := by
  split_ifs
  · exact ha
  · exact hb

theorem zoomBy_wheel {α : Type} (d : Int) (s : Globals α) : 15 ≤ (zoomBy d s).g_wheel := by
  unfold zoomBy
  simp only []
  split_ifs with h
  · exact le_refl _
  · omega

theorem resetRotate_wheel {α : Type} [LinearOrderedField α] (E : CEnv α) (s : Globals α) :
    (resetRotate E s).g_wheel = 60 := rfl

theorem cbMouse_wheel {α : Type} [LinearOrderedField α] (E : CEnv α) (k_state : Nat)
    (button state x y : Int) (s : Globals α) (h : 15 ≤ s.g_wheel) :
    15 ≤ (cbMouse E k_state button state x y s).g_wheel := by
  unfold cbMouse
  repeat' first
    | apply ite_ind (fun t : Globals α => 15 ≤ t.g_wheel)
    | exact h
    | exact zoomBy_wheel _ _
    | (rw [resetRotate_wheel]; decide)

theorem cbMotion_wheel {α : Type} [LinearOrderedField α] (E : CEnv α) (k_state : Nat)
    (x y : Int) (s : Globals α) (h : 15 ≤ s.g_wheel) :
    15 ≤ (cbMotion E k_state x y s).g_wheel := by
  unfold cbMotion
  repeat' first
    | apply ite_ind (fun t : Globals α => 15 ≤ t.g_wheel)
    | exact h

theorem cbSpecialKey_wheel {α : Type} [LinearOrderedField α] (E : CEnv α)
    (key x y : Int) (s : Globals α) (h : 15 ≤ s.g_wheel) :
    15 ≤ (cbSpecialKey E key x y s).g_wheel := by
  unfold cbSpecialKey
  repeat' first
    | apply ite_ind (fun t : Globals α => 15 ≤ t.g_wheel)
    | exact h
    | exact zoomBy_wheel _ _
    | (rw [resetRotate_wheel]; decide)

theorem cbKeyboard_wheel {α : Type} [LinearOrderedField α] (E : CEnv α)
    (key : Char) (x y : Int) (s : Globals α) (h : 15 ≤ s.g_wheel) :
    15 ≤ (cbKeyboard E key x y s).g_wheel := by
  unfold cbKeyboard
  repeat' first
    | apply ite_ind (fun t : Globals α => 15 ≤ t.g_wheel)
    | exact h
    | exact zoomBy_wheel _ _
    | (rw [resetRotate_wheel]; decide)

theorem cbDisplay_wheel {α : Type} (s : Globals α) (h : 15 ≤ s.g_wheel) :
    15 ≤ (cbDisplay s).g_wheel := by
  unfold cbDisplay
  repeat' first
    | apply ite_ind (fun t : Globals α => 15 ≤ t.g_wheel)
    | exact h

theorem update3dData_wheel {α : Type} [LinearOrderedField α] (ts_ns : α) (ply_dat : Nat → Int)
    (ply_cnt : Int) (s : Globals α) (h : 15 ≤ s.g_wheel) :
    15 ≤ (update3dData ts_ns ply_dat ply_cnt s).g_wheel := by
  unfold update3dData
  repeat' first
    | apply ite_ind (fun t : Globals α => 15 ≤ t.g_wheel)
    | exact h

theorem mainPtCloudViewExit_wheel {α : Type} (s : Globals α) (h : 15 ≤ s.g_wheel) :
    15 ≤ (mainPtCloudViewExit s).g_wheel := by
  unfold mainPtCloudViewExit
  repeat' first
    | apply ite_ind (fun t : Globals α => 15 ≤ t.g_wheel)
    | exact h

theorem step_wheel {α : Type} [LinearOrderedField α] (E : CEnv α) (s : Globals α) (ev : Event α)
    (h : 15 ≤ s.g_wheel) : 15 ≤ (step E s ev).g_wheel := by
  cases ev with
  | mouse k b st x y => exact cbMouse_wheel E k b st x y s h
  | mouseWheel n d x y => exact zoomBy_wheel d s
  | motion k x y => exact cbMotion_wheel E k x y s h
  | specialKey key x y => exact cbSpecialKey_wheel E key x y s h
  | keyboard key x y => exact cbKeyboard_wheel E key x y s h
  | reshape w hh => exact h
  | display => exact cbDisplay_wheel s h
  | update3d ts dat cnt => exact update3dData_wheel ts dat cnt s h
  | exit => exact mainPtCloudViewExit_wheel s h

/-- C10: `g_wheel`, initialised with 60, is at least 15 in every state
reachable through any sequence of events (mouse buttons including the wheel
buttons 3 and 4, `cbMouseWheel` with any direction, special keys, keys,
motion, reset, and the other callbacks), with 32-bit wrap-around or without;
so the divisor `g_wheel` of `cbMotion` and `dispDepthPoints` is positive. -/
theorem wheel_ge_min {α : Type} [LinearOrderedField α] (E : CEnv α) (s : Globals α)
    (h : Reachable E s) :
    (initGlobals : Globals α).g_wheel = 60 ∧ 15 ≤ s.g_wheel ∧ (0 : α) < (s.g_wheel : α) := by
  have h15 : 15 ≤ s.g_wheel := by
    induction h with
    | start fov_y z_far win_id =>
      show (15 : Int) ≤ SCALE_DEFAULT / 10
      decide
    | next s ev _ ih => exact step_wheel E s ev ih
  refine ⟨rfl, h15, ?_⟩
  have h0 : (0 : Int) < s.g_wheel := by omega
  exact_mod_cast h0

/-- Witness of C10: the state after `cbMouseWheel` with direction -7, from the
state `mainPtCloudView` sets up. -/
theorem wheel_ge_min_witness :
    Reachable (⟨Real.sqrt, Real.sin, Real.cos, id⟩ : CEnv ℝ)
      (step ⟨Real.sqrt, Real.sin, Real.cos, id⟩
        (mainPtCloudView ⟨Real.sqrt, Real.sin, Real.cos, id⟩ 30 9000 1 initGlobals)
        (Event.mouseWheel 0 (-7) 0 0)) ∧
    (15 : Int) ≤ (step (⟨Real.sqrt, Real.sin, Real.cos, id⟩ : CEnv ℝ)
        (mainPtCloudView ⟨Real.sqrt, Real.sin, Real.cos, id⟩ 30 9000 1 initGlobals)
        (Event.mouseWheel 0 (-7) 0 0)).g_wheel :=
  ⟨Reachable.next _ _ (Reachable.start 30 9000 1),
    (wheel_ge_min ⟨Real.sqrt, Real.sin, Real.cos, id⟩ _
      (Reachable.next _ (Event.mouseWheel 0 (-7) 0 0) (Reachable.start 30 9000 1))).2.1⟩

/-! ## Repeated zoom inputs -/

theorem zoomBy_g_wheel {α : Type} (d : Int) (s : Globals α) :
    (zoomBy d s).g_wheel = zoomWheel d s.g_wheel := rfl

theorem step_subtracts15 {α : Type} [LinearOrderedField α] (E : CEnv α) (s : Globals α)
    (ev : Event α) (h : subtracts15 ev) : (step E s ev).g_wheel = zoomWheel (-1) s.g_wheel := by
  cases ev with
  | mouse k b st x y =>
    obtain ⟨hk, hb⟩ := h
    subst hb
    show (cbMouse E k 3 st x y s).g_wheel = _
    unfold cbMouse
    rw [readModifiers_noModifier k s hk]
    rfl
  | mouseWheel n d x y => exact absurd h id
  | specialKey key x y =>
    have hd : key = GLUT_KEY_F11 := h
    subst hd
    rfl
  | keyboard key x y =>
    have hd : key = 'Z' := h
    subst hd
    rfl
  | motion k x y => exact absurd h id
  | reshape w hh => exact absurd h id
  | display => exact absurd h id
  | update3d ts dat cnt => exact absurd h id
  | exit => exact absurd h id

theorem zoomWheel_range (d w : Int) : 15 ≤ zoomWheel d w ∧ zoomWheel d w < 2147483648 := by
  unfold zoomWheel wrap32
  simp only []
  split_ifs <;> omega

theorem zoomWheel_neg_one (w : Int) (h1 : 15 ≤ w) (h2 : w < 2147483648) :
    zoomWheel (-1) w = if w - 15 ≤ 15 then 15 else w - 15 := by
  unfold zoomWheel wrap32
  simp only []
  split_ifs <;> omega

theorem run_subtracts15 {α : Type} [LinearOrderedField α] (E : CEnv α) (evs : List (Event α)) :
    ∀ (s : Globals α), (∀ ev ∈ evs, subtracts15 ev) →
      (run E s evs).g_wheel = (zoomWheel (-1))^[evs.length] s.g_wheel := by
  induction evs with
  | nil => intro s _; rfl
  | cons ev evs ih =>
    intro s h
    have h1 : subtracts15 ev := h ev (List.mem_cons_self _ _)
    have h2 : ∀ e ∈ evs, subtracts15 e := fun e he => h e (List.mem_cons_of_mem _ he)
    show (run E (step E s ev) evs).g_wheel = _
    rw [ih (step E s ev) h2, step_subtracts15 E s ev h1]
    rfl

theorem zoomWheel_iterate_at_min (m : Nat) : (zoomWheel (-1))^[m] 15 = 15 := by
  induction m with
  | zero => rfl
  | succ m ih =>
    rw [Function.iterate_succ_apply]
    have : zoomWheel (-1) 15 = 15 := by decide
    rw [this, ih]

theorem zoomWheel_iterate_reaches (k : Nat) :
    ∀ w : Int, 15 ≤ w → w ≤ 15 + 15 * (k : Int) → w < 2147483648 →
      (zoomWheel (-1))^[k] w = 15 := by
  induction k with
  | zero =>
    intro w h1 h2 _
    have : w = 15 := by omega
    rw [this]
    rfl
  | succ k ih =>
    intro w h1 h2 h3
    rw [Function.iterate_succ_apply, zoomWheel_neg_one w h1 h3]
    split_ifs with h
    · exact zoomWheel_iterate_at_min k
    · apply ih <;> push_cast at h2 <;> omega

/-- C11, amended: from any starting zoom value, repeating a zoom-in input (F11,
`Z`, the wheel as button 3 without modifier; each subtracts 15) brings
`g_wheel` to the minimum 15 after finitely many repetitions, at most
`zoomWheel (-1) g_wheel / 15 + 1` of them, and every further such input leaves
it at 15. -/
theorem zoom_in_reaches_min {α : Type} [LinearOrderedField α] (E : CEnv α) (s : Globals α)
    (evs : List (Event α)) (hall : ∀ ev ∈ evs, subtracts15 ev)
    (hlen : (zoomWheel (-1) s.g_wheel / 15).toNat + 1 ≤ evs.length) :
    (run E s evs).g_wheel = 15 := by
  rw [run_subtracts15 E evs s hall]
  obtain ⟨j, hj⟩ := Nat.exists_eq_add_of_le hlen
  have hr := zoomWheel_range (-1) s.g_wheel
  rw [hj, show (zoomWheel (-1) s.g_wheel / 15).toNat + 1 + j
      = j + (zoomWheel (-1) s.g_wheel / 15).toNat + 1 by omega,
    Function.iterate_succ_apply, Function.iterate_add_apply,
    zoomWheel_iterate_reaches _ _ hr.1 (by omega) hr.2]
  exact zoomWheel_iterate_at_min j

/-- Witness of C11 amended: four presses of F11 from the state
`mainPtCloudView` sets up (60, 45, 30, 15, 15). -/
theorem zoom_in_reaches_min_witness :
    (run (⟨Real.sqrt, Real.sin, Real.cos, id⟩ : CEnv ℝ)
      (mainPtCloudView ⟨Real.sqrt, Real.sin, Real.cos, id⟩ 30 9000 1 initGlobals)
      (List.replicate 4 (Event.specialKey GLUT_KEY_F11 0 0))).g_wheel = 15 :=
  zoom_in_reaches_min _ _ _
    (fun ev h => by rw [List.eq_of_mem_replicate h]; exact rfl) (by decide)

/-- C11 as stated fails: the inputs the help text labels Zoom Out add 15. From
the state `mainPtCloudView` sets up, three presses of F11 bring `g_wheel` to
15; one more zoom-out input (F12, `z`, or the wheel as button 4) then leaves
30, not 15, and two presses of F12 from the start leave 90. -/
theorem zoom_out_leaves_min :
    (run (⟨Real.sqrt, Real.sin, Real.cos, id⟩ : CEnv ℝ)
      (mainPtCloudView ⟨Real.sqrt, Real.sin, Real.cos, id⟩ 30 9000 1 initGlobals)
      [Event.specialKey GLUT_KEY_F11 0 0, Event.specialKey GLUT_KEY_F11 0 0,
       Event.specialKey GLUT_KEY_F11 0 0]).g_wheel = 15 ∧
    (run (⟨Real.sqrt, Real.sin, Real.cos, id⟩ : CEnv ℝ)
      (mainPtCloudView ⟨Real.sqrt, Real.sin, Real.cos, id⟩ 30 9000 1 initGlobals)
      [Event.specialKey GLUT_KEY_F11 0 0, Event.specialKey GLUT_KEY_F11 0 0,
       Event.specialKey GLUT_KEY_F11 0 0, Event.specialKey GLUT_KEY_F12 0 0]).g_wheel = 30 ∧
    (run (⟨Real.sqrt, Real.sin, Real.cos, id⟩ : CEnv ℝ)
      (mainPtCloudView ⟨Real.sqrt, Real.sin, Real.cos, id⟩ 30 9000 1 initGlobals)
      [Event.specialKey GLUT_KEY_F11 0 0, Event.specialKey GLUT_KEY_F11 0 0,
       Event.specialKey GLUT_KEY_F11 0 0, Event.keyboard 'z' 0 0]).g_wheel = 30 ∧
    (run (⟨Real.sqrt, Real.sin, Real.cos, id⟩ : CEnv ℝ)
      (mainPtCloudView ⟨Real.sqrt, Real.sin, Real.cos, id⟩ 30 9000 1 initGlobals)
      [Event.specialKey GLUT_KEY_F11 0 0, Event.specialKey GLUT_KEY_F11 0 0,
       Event.specialKey GLUT_KEY_F11 0 0, Event.mouse 0 4 GLUT_DOWN 0 0]).g_wheel = 30 ∧
    (run (⟨Real.sqrt, Real.sin, Real.cos, id⟩ : CEnv ℝ)
      (mainPtCloudView ⟨Real.sqrt, Real.sin, Real.cos, id⟩ 30 9000 1 initGlobals)
      [Event.specialKey GLUT_KEY_F12 0 0, Event.specialKey GLUT_KEY_F12 0 0]).g_wheel = 90 :=
  ⟨rfl, rfl, rfl, rfl, rfl⟩

/-! ## Ingest: the inactive viewer, and what an active one stores -/

/-- C12: if `g_glut_inited` is false or `g_glut_running` is false,
`update3dData(ts, data, count)` is a no-op for every `ts`, `data` and `count`:
it returns the variables as they are, so the timestamp, the count and every
point of `g_ply` are unchanged. -/
theorem update3dData_not_active {α : Type} [LinearOrderedField α] (ts_ns : α)
    (ply_dat : Nat → Int) (ply_cnt : Int) (s : Globals α)
    (h : s.g_glut_inited = false ∨ s.g_glut_running = false) :
    update3dData ts_ns ply_dat ply_cnt s = s ∧
    (update3dData ts_ns ply_dat ply_cnt s).g_ply.ns = s.g_ply.ns ∧
    (update3dData ts_ns ply_dat ply_cnt s).g_ply.cnt = s.g_ply.cnt ∧
    ∀ j : Nat, (update3dData ts_ns ply_dat ply_cnt s).g_ply.pt j = s.g_ply.pt j := by
  have he : update3dData ts_ns ply_dat ply_cnt s = s := by
    unfold update3dData
    rcases h with h | h
    · rw [if_pos h]
    · by_cases h2 : s.g_glut_inited = false
      · rw [if_pos h2]
      · rw [if_neg h2, if_pos h]
  rw [he]
  exact ⟨rfl, rfl, rfl, fun _ => rfl⟩

/-- Witness of C12: a call before `mainPtCloudView` has run. -/
theorem update3dData_not_active_witness :
    update3dData (5 : ℚ) (fun _ => 1) 3 initGlobals = initGlobals :=
  (update3dData_not_active (5 : ℚ) (fun _ => 1) 3 initGlobals (Or.inl rfl)).1

theorem update3dData_ns {α : Type} [LinearOrderedField α] (ts_ns : α) (ply_dat : Nat → Int)
    (ply_cnt : Int) (s : Globals α) (hi : s.g_glut_inited = true) (hr : s.g_glut_running = true) :
    (update3dData ts_ns ply_dat ply_cnt s).g_ply.ns = ts_ns := by
  unfold update3dData
  simp only [hi, hr, Bool.true_eq_false, if_false]

theorem wrap32_of_range (v : Int) (h1 : -2147483648 ≤ v) (h2 : v < 2147483648) :
    wrap32 v = v := by
  unfold wrap32
  omega

theorem storedPoint_z {α : Type} [LinearOrderedField α] (g_depth_min : Int)
    (ply_dat : Nat → Int) (i : Nat) :
    (storedPoint (α := α) g_depth_min ply_dat i).z =
      if ply_dat (3 * i + 2) > g_depth_min then
        ((wrap32 (ply_dat (3 * i + 2) - g_depth_min) : Int) : α)
      else 65535 := by
  show (if ((ply_dat (3 * i + 2) : Int) : α) > ((g_depth_min : Int) : α) then
      ((wrap32 (ply_dat (3 * i + 2) - g_depth_min) : Int) : α) else 65535) = _
  by_cases hz : ply_dat (3 * i + 2) > g_depth_min
  · have hz2 : ((ply_dat (3 * i + 2) : Int) : α) > ((g_depth_min : Int) : α) := by
      exact_mod_cast hz
    rw [if_pos hz, if_pos hz2]
  · have hz2 : ¬ ((ply_dat (3 * i + 2) : Int) : α) > ((g_depth_min : Int) : α) := by
      exact_mod_cast hz
    rw [if_neg hz, if_neg hz2]

/-- C13: while the viewer is initialized and running, `update3dData` with
`0 ≤ count ≤ MAX_PLY_SIZE` stores the count and the timestamp as given and, for
every `i < count`, `x` and `y` as given and `z - g_depth_min` (the `int`
difference) when the raw depth `z` exceeds `g_depth_min`, else the sentinel
65535. For `int16_t` data and `g_depth_min ≥ -2147450880`, in particular
`g_depth_min ≥ 0`, the `int` difference is the exact one. -/
theorem update3dData_stores {α : Type} [LinearOrderedField α] (ts_ns : α)
    (ply_dat : Nat → Int) (ply_cnt : Int) (s : Globals α) (hi : s.g_glut_inited = true)
    (hr : s.g_glut_running = true) (_h0 : 0 ≤ ply_cnt) (_hc : ply_cnt ≤ (MAX_PLY_SIZE : Int)) :
    (update3dData ts_ns ply_dat ply_cnt s).g_ply.cnt = ply_cnt ∧
    (update3dData ts_ns ply_dat ply_cnt s).g_ply.ns = ts_ns ∧
    ∀ i : Nat, (i : Int) < ply_cnt →
      ((update3dData ts_ns ply_dat ply_cnt s).g_ply.pt i).x = ((ply_dat (3 * i) : Int) : α) ∧
      ((update3dData ts_ns ply_dat ply_cnt s).g_ply.pt i).y = ((ply_dat (3 * i + 1) : Int) : α) ∧
      ((update3dData ts_ns ply_dat ply_cnt s).g_ply.pt i).z =
        (if ply_dat (3 * i + 2) > s.g_depth_min then
          ((wrap32 (ply_dat (3 * i + 2) - s.g_depth_min) : Int) : α)
        else 65535) ∧
      (-32768 ≤ ply_dat (3 * i + 2) → ply_dat (3 * i + 2) ≤ 32767 →
        -2147450880 ≤ s.g_depth_min →
        ((update3dData ts_ns ply_dat ply_cnt s).g_ply.pt i).z =
          if ply_dat (3 * i + 2) > s.g_depth_min then
            ((ply_dat (3 * i + 2) - s.g_depth_min : Int) : α)
          else 65535) := by
  refine ⟨update3dData_cnt ts_ns ply_dat ply_cnt s hi hr,
    update3dData_ns ts_ns ply_dat ply_cnt s hi hr, ?_⟩
  intro i hlt
  rw [update3dData_pt ts_ns ply_dat ply_cnt s hi hr, if_pos hlt]
  refine ⟨rfl, rfl, storedPoint_z s.g_depth_min ply_dat i, ?_⟩
  intro h1 h2 h3
  rw [storedPoint_z s.g_depth_min ply_dat i]
  by_cases hz : ply_dat (3 * i + 2) > s.g_depth_min
  · rw [if_pos hz, if_pos hz, wrap32_of_range _ (by omega) (by omega)]
  · rw [if_neg hz, if_neg hz]

/-- Witness of C13: in the state `mainPtCloudView` sets up, a frame of two
points `(5, 6, 700)` and `(5, 6, 0)`: the first keeps its depth 700, the second
gets the sentinel. -/
theorem update3dData_stores_witness :
    (update3dData (9 : ℝ) (fun k => if k % 3 = 0 then 5 else if k % 3 = 1 then 6
        else if k = 2 then 700 else 0) 2
      (mainPtCloudView ⟨Real.sqrt, Real.sin, Real.cos, id⟩ 30 9000 1 initGlobals)).g_ply.cnt = 2 ∧
    (update3dData (9 : ℝ) (fun k => if k % 3 = 0 then 5 else if k % 3 = 1 then 6
        else if k = 2 then 700 else 0) 2
      (mainPtCloudView ⟨Real.sqrt, Real.sin, Real.cos, id⟩ 30 9000 1 initGlobals)).g_ply.ns = 9 ∧
    ((update3dData (9 : ℝ) (fun k => if k % 3 = 0 then 5 else if k % 3 = 1 then 6
        else if k = 2 then 700 else 0) 2
      (mainPtCloudView ⟨Real.sqrt, Real.sin, Real.cos, id⟩ 30 9000 1 initGlobals)).g_ply.pt 0).z
        = 700 ∧
    ((update3dData (9 : ℝ) (fun k => if k % 3 = 0 then 5 else if k % 3 = 1 then 6
        else if k = 2 then 700 else 0) 2
      (mainPtCloudView ⟨Real.sqrt, Real.sin, Real.cos, id⟩ 30 9000 1 initGlobals)).g_ply.pt 1).z
        = 65535 := by
  have h := update3dData_stores (9 : ℝ) (fun k => if k % 3 = 0 then 5 else if k % 3 = 1 then 6
      else if k = 2 then 700 else 0) 2
    (mainPtCloudView ⟨Real.sqrt, Real.sin, Real.cos, id⟩ 30 9000 1 initGlobals) rfl rfl
    (by decide) (by decide)
  refine ⟨h.1, h.2.1, ?_, ?_⟩
  · rw [(h.2.2 0 (by decide)).2.2.1]
    have hg : (mainPtCloudView (⟨Real.sqrt, Real.sin, Real.cos, id⟩ : CEnv ℝ) 30 9000 1
        initGlobals).g_depth_min = 0 := rfl
    rw [hg]
    norm_num [wrap32]
  · rw [(h.2.2 1 (by decide)).2.2.1]
    have hg : (mainPtCloudView (⟨Real.sqrt, Real.sin, Real.cos, id⟩ : CEnv ℝ) 30 9000 1
        initGlobals).g_depth_min = 0 := rfl
    rw [hg]
    norm_num

/-! ## Quaternion algebra -/

/-- C14: for every quaternion `q`, `qMul(r, identity, q)` with
`identity = (1, 0, 0, 0)` yields `r = q`, component by component. -/
theorem qMul_identity_left {α : Type} [Ring α] (q : Fin 4 → α) :
    qMul ![1, 0, 0, 0] q = q := by
  funext i
  fin_cases i <;> simp [qMul]

/-- C15: `qMul` is associative in exact arithmetic (any commutative ring, the
reals among them): `qMul(qMul(p, q), s) = qMul(p, qMul(q, s))`. -/
theorem qMul_assoc {α : Type} [CommRing α] (p q s : Fin 4 → α) :
    qMul (qMul p q) s = qMul p (qMul q s) := by
  funext i
  fin_cases i <;> simp [qMul] <;> ring

/-- C16: `qMul` is not commutative: for `p = (0, 1, 0, 0)` and
`q = (0, 0, 1, 0)`, `qMul(p, q) = (0, 0, 0, 1)` and `qMul(q, p) = (0, 0, 0, -1)`,
so there are quaternions `p`, `q` with `qMul(p, q) ≠ qMul(q, p)`. -/
theorem qMul_not_comm :
    qMul (![0, 1, 0, 0] : Fin 4 → ℝ) ![0, 0, 1, 0] = ![0, 0, 0, 1] ∧
    qMul (![0, 0, 1, 0] : Fin 4 → ℝ) ![0, 1, 0, 0] = ![0, 0, 0, -1] ∧
    ∃ p q : Fin 4 → ℝ, qMul p q ≠ qMul q p := by
  refine ⟨?_, ?_, ![0, 1, 0, 0], ![0, 0, 1, 0], ?_⟩
  · funext i
    fin_cases i <;> simp [qMul]
  · funext i
    fin_cases i <;> simp [qMul]
  · intro h
    have h3 := congrFun h 3
    simp [qMul] at h3
    norm_num at h3

/-- C17: `qRot` applied to the identity quaternion `(1, 0, 0, 0)` writes the
4x4 identity: cells 0, 5, 10 and 15 are 1 and the other twelve cells are 0. -/
theorem qRot_identity_cells {α : Type} [Ring α] :
    qRot (![1, 0, 0, 0] : Fin 4 → α) 0 = 1 ∧ qRot (![1, 0, 0, 0] : Fin 4 → α) 1 = 0 ∧
    qRot (![1, 0, 0, 0] : Fin 4 → α) 2 = 0 ∧ qRot (![1, 0, 0, 0] : Fin 4 → α) 3 = 0 ∧
    qRot (![1, 0, 0, 0] : Fin 4 → α) 4 = 0 ∧ qRot (![1, 0, 0, 0] : Fin 4 → α) 5 = 1 ∧
    qRot (![1, 0, 0, 0] : Fin 4 → α) 6 = 0 ∧ qRot (![1, 0, 0, 0] : Fin 4 → α) 7 = 0 ∧
    qRot (![1, 0, 0, 0] : Fin 4 → α) 8 = 0 ∧ qRot (![1, 0, 0, 0] : Fin 4 → α) 9 = 0 ∧
    qRot (![1, 0, 0, 0] : Fin 4 → α) 10 = 1 ∧ qRot (![1, 0, 0, 0] : Fin 4 → α) 11 = 0 ∧
    qRot (![1, 0, 0, 0] : Fin 4 → α) 12 = 0 ∧ qRot (![1, 0, 0, 0] : Fin 4 → α) 13 = 0 ∧
    qRot (![1, 0, 0, 0] : Fin 4 → α) 14 = 0 ∧ qRot (![1, 0, 0, 0] : Fin 4 → α) 15 = 1 := by
  refine ⟨?_, ?_, ?_, ?_, ?_, ?_, ?_, ?_, ?_, ?_, ?_, ?_, ?_, ?_, ?_, ?_⟩ <;> simp [qRot]

/-! ## Leaving the main loop -/

/-- C18: `mainPtCloudViewExit` is idempotent. When `g_glut_inited` or
`g_glut_running` is set, one call clears both flags and calls
`glutLeaveMainLoop` once; a second call right after it changes nothing and
calls `glutLeaveMainLoop` no more. -/
theorem mainPtCloudViewExit_once {α : Type} (s : Globals α)
    (h : s.g_glut_inited = true ∨ s.g_glut_running = true) :
    (mainPtCloudViewExit s).g_glut_inited = false ∧
    (mainPtCloudViewExit s).g_glut_running = false ∧
    (mainPtCloudViewExit s).glut_leave_calls = s.glut_leave_calls + 1 ∧
    mainPtCloudViewExit (mainPtCloudViewExit s) = mainPtCloudViewExit s ∧
    (mainPtCloudViewExit (mainPtCloudViewExit s)).glut_leave_calls = s.glut_leave_calls + 1 := by
  have h2 : mainPtCloudViewExit (mainPtCloudViewExit s) = mainPtCloudViewExit s := by
    unfold mainPtCloudViewExit
    rw [if_pos h]
    simp
  rw [h2]
  unfold mainPtCloudViewExit
  rw [if_pos h]
  exact ⟨rfl, rfl, rfl, rfl, rfl⟩

/-- Witness of C18: the state `mainPtCloudView` sets up. -/
theorem mainPtCloudViewExit_once_witness :
    mainPtCloudViewExit (mainPtCloudViewExit
      (mainPtCloudView (⟨Real.sqrt, Real.sin, Real.cos, id⟩ : CEnv ℝ) 30 9000 1 initGlobals))
      = mainPtCloudViewExit
        (mainPtCloudView (⟨Real.sqrt, Real.sin, Real.cos, id⟩ : CEnv ℝ) 30 9000 1 initGlobals) :=
  (mainPtCloudViewExit_once
    (mainPtCloudView (⟨Real.sqrt, Real.sin, Real.cos, id⟩ : CEnv ℝ) 30 9000 1 initGlobals)
    (Or.inl rfl)).2.2.2.1

/-! ## Modifiers during a drag -/

theorem cbMotion_noModifier_offset {α : Type} [LinearOrderedField α] (E : CEnv α) (k_state : Nat)
    (x y : Int) (s : Globals α) (hk : noModifier k_state) :
    (cbMotion E k_state x y s).g_offset_x = s.g_offset_x := by
  rw [cbMotion_noModifier E k_state x y s hk]
  split_ifs <;> rfl

theorem cbMotion_ctrl_offset {α : Type} [LinearOrderedField α] (E : CEnv α)
    (x y : Int) (s : Globals α) :
    (cbMotion E GLUT_ACTIVE_CTRL x y s).g_offset_x =
      s.g_offset_x + ((wrap32 (x - s.g_cx_s) : Int) : α) * s.g_sx * 6
        * ((SCALE_DEFAULT : α) / (s.g_wheel : α)) := by
  unfold cbMotion
  have h : (readModifiers GLUT_ACTIVE_CTRL s).g_k_ctrl = 1 := rfl
  simp only [h, if_true]
  rfl

/-- C19 as stated fails: two runs from the state `mainPtCloudView` sets up
that differ only in the modifier reported with the motion event (none, or
Ctrl), after the same plain button-down at (100, 100), end in different
states: the first rotates and leaves `g_offset_x = 0`, the second pans and
leaves `g_offset_x = 6`. -/
theorem motion_modifiers_matter :
    (run (⟨Real.sqrt, Real.sin, Real.cos, id⟩ : CEnv ℝ)
      (mainPtCloudView ⟨Real.sqrt, Real.sin, Real.cos, id⟩ 30 9000 1 initGlobals)
      [Event.reshape 640 480, Event.mouse 0 GLUT_LEFT_BUTTON GLUT_DOWN 100 100,
       Event.motion 0 164 100]).g_offset_x = 0 ∧
    (run (⟨Real.sqrt, Real.sin, Real.cos, id⟩ : CEnv ℝ)
      (mainPtCloudView ⟨Real.sqrt, Real.sin, Real.cos, id⟩ 30 9000 1 initGlobals)
      [Event.reshape 640 480, Event.mouse 0 GLUT_LEFT_BUTTON GLUT_DOWN 100 100,
       Event.motion GLUT_ACTIVE_CTRL 164 100]).g_offset_x = 6 ∧
    (0 : ℝ) ≠ 6 := by
  refine ⟨?_, ?_, by norm_num⟩
  · simp only [run, List.foldl, step]
    rw [cbMotion_noModifier_offset _ _ _ _ _ (by decide), cbMouse_left_down _ _ _ _ _ (by decide)]
    rfl
  · simp only [run, List.foldl, step]
    rw [cbMotion_ctrl_offset, cbMouse_left_down _ _ _ _ _ (by decide)]
    simp [cbReshape, mainPtCloudView, resetRotate, initGlobals, wrap32, SCALE_DEFAULT]
    norm_num

/-- C19, amended: the effect of a motion event is determined by the modifiers
reported when the motion event arrives, not by the flags recorded before:
`cbMotion` overwrites `g_k_shift`, `g_k_ctrl`, `g_k_alt` from
`glutGetModifiers()` before it branches, so two states that differ only in
these recorded flags are taken by the same motion event to the same state. -/
theorem cbMotion_recorded_flags {α : Type} [LinearOrderedField α] (E : CEnv α) (k_state : Nat)
    (x y : Int) (s : Globals α) (a b c : Int) :
    cbMotion E k_state x y { s with g_k_shift := a, g_k_ctrl := b, g_k_alt := c } =
      cbMotion E k_state x y s := by
  have h : readModifiers k_state { s with g_k_shift := a, g_k_ctrl := b, g_k_alt := c } =
      readModifiers k_state s := rfl
  unfold cbMotion
  rw [h]

/-! ## Display toggles -/

/-- C20: each display-toggle key (`h`/F1 help, `a`/F2 axes, `g`/F3 grid,
`l`/F4 legend, `p` points) negates its own flag and changes no other
variable, display flag or camera field; pressing the same key twice gives the
original state back. -/
theorem display_toggle_keys {α : Type} [LinearOrderedField α] (E : CEnv α) (s : Globals α)
    (x y x2 y2 : Int) :
    (cbKeyboard E 'h' x y s = { s with g_disp_guide := !s.g_disp_guide } ∧
     cbSpecialKey E GLUT_KEY_F1 x y s = { s with g_disp_guide := !s.g_disp_guide } ∧
     cbKeyboard E 'a' x y s = { s with g_disp_xyz_axis := !s.g_disp_xyz_axis } ∧
     cbSpecialKey E GLUT_KEY_F2 x y s = { s with g_disp_xyz_axis := !s.g_disp_xyz_axis } ∧
     cbKeyboard E 'g' x y s = { s with g_disp_grid := !s.g_disp_grid } ∧
     cbSpecialKey E GLUT_KEY_F3 x y s = { s with g_disp_grid := !s.g_disp_grid } ∧
     cbKeyboard E 'l' x y s = { s with g_disp_depth_bar := !s.g_disp_depth_bar } ∧
     cbSpecialKey E GLUT_KEY_F4 x y s = { s with g_disp_depth_bar := !s.g_disp_depth_bar } ∧
     cbKeyboard E 'p' x y s = { s with g_disp_depth := !s.g_disp_depth }) ∧
    (cbKeyboard E 'h' x2 y2 (cbKeyboard E 'h' x y s) = s ∧
     cbSpecialKey E GLUT_KEY_F1 x2 y2 (cbSpecialKey E GLUT_KEY_F1 x y s) = s ∧
     cbKeyboard E 'a' x2 y2 (cbKeyboard E 'a' x y s) = s ∧
     cbSpecialKey E GLUT_KEY_F2 x2 y2 (cbSpecialKey E GLUT_KEY_F2 x y s) = s ∧
     cbKeyboard E 'g' x2 y2 (cbKeyboard E 'g' x y s) = s ∧
     cbSpecialKey E GLUT_KEY_F3 x2 y2 (cbSpecialKey E GLUT_KEY_F3 x y s) = s ∧
     cbKeyboard E 'l' x2 y2 (cbKeyboard E 'l' x y s) = s ∧
     cbSpecialKey E GLUT_KEY_F4 x2 y2 (cbSpecialKey E GLUT_KEY_F4 x y s) = s ∧
     cbKeyboard E 'p' x2 y2 (cbKeyboard E 'p' x y s) = s) := by
  refine ⟨⟨rfl, rfl, rfl, rfl, rfl, rfl, rfl, rfl, rfl⟩, ?_, ?_, ?_, ?_, ?_, ?_, ?_, ?_, ?_⟩
  all_goals
    cases s
    simp [cbKeyboard, cbSpecialKey, GLUT_KEY_F1, GLUT_KEY_F2, GLUT_KEY_F3, GLUT_KEY_F4]

/-! ## The threshold `g_depth_min` under events -/

theorem Reachable_run {α : Type} [LinearOrderedField α] (E : CEnv α) (evs : List (Event α)) :
    ∀ s : Globals α, Reachable E s → Reachable E (run E s evs) := by
  induction evs with
  | nil => intro s h; exact h
  | cons ev evs ih =>
    intro s h
    exact ih (step E s ev) (Reachable.next s ev h)

/-- C23: `qMul` is the Hamilton product in (w, x, y, z) order: reading a
4-cell array as the quaternion `q0 + q1 i + q2 j + q3 k`, the array `qMul`
fills for `p` and `q` is the product `p * q` of the quaternion algebra (over
any commutative ring, the reals among them); on the basis it gives
`i i = j j = k k = (i j) k = -1`. -/
theorem qMul_hamilton {R : Type} [CommRing R] (p q : Fin 4 → R) :
    toQuaternion (qMul p q) = toQuaternion p * toQuaternion q ∧
    qMul (![0, 1, 0, 0] : Fin 4 → R) ![0, 1, 0, 0] = ![-1, 0, 0, 0] ∧
    qMul (![0, 0, 1, 0] : Fin 4 → R) ![0, 0, 1, 0] = ![-1, 0, 0, 0] ∧
    qMul (![0, 0, 0, 1] : Fin 4 → R) ![0, 0, 0, 1] = ![-1, 0, 0, 0] ∧
    qMul (qMul (![0, 1, 0, 0] : Fin 4 → R) ![0, 0, 1, 0]) ![0, 0, 0, 1] = ![-1, 0, 0, 0] := by
  refine ⟨?_, ?_, ?_, ?_, ?_⟩
  · apply Quaternion.ext
    · simp [toQuaternion, qMul, Quaternion.mul_re]
    · simp [toQuaternion, qMul, Quaternion.mul_imI]
    · simp [toQuaternion, qMul, Quaternion.mul_imJ]
    · simp [toQuaternion, qMul, Quaternion.mul_imK]
  · funext i
    fin_cases i <;> simp [qMul]
  · funext i
    fin_cases i <;> simp [qMul]
  · funext i
    fin_cases i <;> simp [qMul]
  · funext i
    fin_cases i <;> simp [qMul]

/-- C27: for unit quaternions `p` and `q` (exact real arithmetic) every entry
(row, col) of the matrix `qRot` writes for `qMul(p, q)` is the entry of the
matrix product of the matrices `qRot` writes for `p` and for `q`, the 16-cell
arrays read in column-major order. -/
theorem qRot_qMul (p q : Fin 4 → ℝ) (hp : qNormSq p = 1) (hq : qNormSq q = 1)
    (row col : Fin 4) :
    matEntry (qRot (qMul p q)) row col = matMulEntry (qRot p) (qRot q) row col := by
  unfold qNormSq at hp hq
  fin_cases row <;> fin_cases col <;> simp [matEntry, matMulEntry, qRot, qMul]
  · linear_combination (1 - q 2 * q 2 * 2 - q 3 * q 3 * 2 - (q 0 * q 0 + q 1 * q 1 + q 2 * q 2 + q 3 * q 3)) * hp
      + (1 - p 2 * p 2 * 2 - p 3 * p 3 * 2 + (p 0 * p 0 + p 1 * p 1 + p 2 * p 2 + p 3 * p 3) - 2) * hq
  · linear_combination (q 1 * q 2 * 2 - q 3 * q 0 * 2) * hp
      + (p 1 * p 2 * 2 - p 3 * p 0 * 2) * hq
  · linear_combination (q 3 * q 1 * 2 + q 2 * q 0 * 2) * hp
      + (p 3 * p 1 * 2 + p 2 * p 0 * 2) * hq
  · linear_combination (q 1 * q 2 * 2 + q 3 * q 0 * 2) * hp
      + (p 1 * p 2 * 2 + p 3 * p 0 * 2) * hq
  · linear_combination (1 - q 3 * q 3 * 2 - q 1 * q 1 * 2 - (q 0 * q 0 + q 1 * q 1 + q 2 * q 2 + q 3 * q 3)) * hp
      + (1 - p 3 * p 3 * 2 - p 1 * p 1 * 2 + (p 0 * p 0 + p 1 * p 1 + p 2 * p 2 + p 3 * p 3) - 2) * hq
  · linear_combination (q 2 * q 3 * 2 - q 1 * q 0 * 2) * hp
      + (p 2 * p 3 * 2 - p 1 * p 0 * 2) * hq
  · linear_combination (q 3 * q 1 * 2 - q 2 * q 0 * 2) * hp
      + (p 3 * p 1 * 2 - p 2 * p 0 * 2) * hq
  · linear_combination (q 2 * q 3 * 2 + q 1 * q 0 * 2) * hp
      + (p 2 * p 3 * 2 + p 1 * p 0 * 2) * hq
  · linear_combination (1 - q 1 * q 1 * 2 - q 2 * q 2 * 2 - (q 0 * q 0 + q 1 * q 1 + q 2 * q 2 + q 3 * q 3)) * hp
      + (1 - p 1 * p 1 * 2 - p 2 * p 2 * 2 + (p 0 * p 0 + p 1 * p 1 + p 2 * p 2 + p 3 * p 3) - 2) * hq

/-- Witness of C27: the unit quaternions `i` and `j`. -/
theorem qRot_qMul_witness :
    matEntry (qRot (qMul (![0, 1, 0, 0] : Fin 4 → ℝ) ![0, 0, 1, 0])) 0 0 =
      matMulEntry (qRot (![0, 1, 0, 0] : Fin 4 → ℝ)) (qRot ![0, 0, 1, 0]) 0 0 :=
  qRot_qMul ![0, 1, 0, 0] ![0, 0, 1, 0] (by simp [qNormSq]) (by simp [qNormSq]) 0 0

/-! ## The two wheel paths -/

/-- C26, the code at the failing input: `cbMouseWheel` with direction +1 adds
15 to `g_wheel`, as F12, `z` and button 4 do, while button 3 (no modifier), F11
and `Z` subtract 15; with direction -1 it subtracts 15, as button 3, F11 and
`Z` do. From the value 60 that `mainPtCloudView` sets, wheel-up through
`cbMouseWheel` gives 75, and through button 3, F11 or `Z` it gives
`max(15, 60 - 15) = 45`. -/
theorem wheel_paths_disagree {α : Type} [LinearOrderedField α] (E : CEnv α) (s : Globals α)
    (n x y : Int) :
    (cbMouseWheel n 1 x y s).g_wheel = zoomWheel 1 s.g_wheel ∧
    (cbMouse E 0 3 GLUT_DOWN x y s).g_wheel = zoomWheel (-1) s.g_wheel ∧
    (cbSpecialKey E GLUT_KEY_F11 x y s).g_wheel = zoomWheel (-1) s.g_wheel ∧
    (cbKeyboard E 'Z' x y s).g_wheel = zoomWheel (-1) s.g_wheel ∧
    (cbMouseWheel n (-1) x y s).g_wheel = zoomWheel (-1) s.g_wheel ∧
    (cbMouse E 0 4 GLUT_DOWN x y s).g_wheel = zoomWheel 1 s.g_wheel ∧
    (cbSpecialKey E GLUT_KEY_F12 x y s).g_wheel = zoomWheel 1 s.g_wheel ∧
    (cbKeyboard E 'z' x y s).g_wheel = zoomWheel 1 s.g_wheel ∧
    zoomWheel 1 60 = 75 ∧ zoomWheel (-1) 60 = 45 ∧
    (if (60 : Int) - 15 ≤ 15 then (15 : Int) else 60 - 15) = 45 ∧
    (mainPtCloudView E 30 9000 1 initGlobals).g_wheel = 60 :=
  ⟨rfl, rfl, rfl, rfl, rfl, rfl, rfl, rfl, by decide, by decide, by decide, rfl⟩

/-! ## The norm of the committed quaternion -/

/-- C28, the code at the failing input: from the state `mainPtCloudView` sets
up, where `g_cq = (1, 0, 0, 0)` has norm 1, a plain press and release of the
primary button at (100, 100) with no motion in between reach a state whose
`g_cq` is the never-assigned `g_tq = (0, 0, 0, 0)`, of norm 0. -/
theorem click_reaches_norm_zero :
    Reachable (⟨Real.sqrt, Real.sin, Real.cos, id⟩ : CEnv ℝ)
      (run ⟨Real.sqrt, Real.sin, Real.cos, id⟩
        (mainPtCloudView ⟨Real.sqrt, Real.sin, Real.cos, id⟩ 30 9000 1 initGlobals)
        [Event.mouse 0 GLUT_LEFT_BUTTON GLUT_DOWN 100 100,
         Event.mouse 0 GLUT_LEFT_BUTTON GLUT_UP 100 100]) ∧
    qNormSq (mainPtCloudView (⟨Real.sqrt, Real.sin, Real.cos, id⟩ : CEnv ℝ) 30 9000 1
      initGlobals).g_cq = 1 ∧
    qNormSq (run (⟨Real.sqrt, Real.sin, Real.cos, id⟩ : CEnv ℝ)
        (mainPtCloudView ⟨Real.sqrt, Real.sin, Real.cos, id⟩ 30 9000 1 initGlobals)
        [Event.mouse 0 GLUT_LEFT_BUTTON GLUT_DOWN 100 100,
         Event.mouse 0 GLUT_LEFT_BUTTON GLUT_UP 100 100]).g_cq = 0 ∧
    (0 : ℝ) ≠ 1 := by
  refine ⟨Reachable_run _ _ _ (Reachable.start 30 9000 1), ?_, ?_, by norm_num⟩
  · simp [qNormSq, mainPtCloudView, resetRotate]
  · simp only [run, List.foldl, step]
    rw [cbMouse_left_up _ 0 100 100 _ (by decide), cbMouse_left_down _ 0 100 100 _ (by decide)]
    simp [qNormSq, mainPtCloudView, resetRotate, initGlobals]

/-! ## Ingest and lookup biases -/

end PtCloud
